import Mathlib

/-!
# Verification of the Azure Form Recognizer converter

A shallow embedding of `haystack/nodes/file_converter/azure.py`
(`AzureConverter._convert_tables`, `_convert_text`, `_convert_tables_and_text`)
together with proofs about the table/text reconstruction algorithm.

Python-level semantics (list indexing with negative wrap-around and
`IndexError`, `str.replace`, `str.strip`, slices, `next()` over a generator,
truthiness of empty containers) are modelled explicitly by the `py*` helpers
below.  Fallible code returns `Except PyError`.
-/

namespace Azure

/-- The exceptions the embedded code can signal.  `malformedTableResult` is
modelled from the spec (§7): the spec prescribes a dedicated
"MalformedTableResult" error for inconsistent cell coordinates; it is declared
here so that we can state whether the implementation ever signals it. -/
inductive PyError where
  | indexError
  | typeError
  | stopIteration
  | haystackError
  | malformedTableResult
deriving Repr, DecidableEq

/-- The effective index of a Python subscript: negative indices count from
the end of the list. -/
def pyIdx (n : Nat) (i : Int) : Int :=
  if i < 0 then i + n else i

/-- Python list read `l[i]`: negative indices count from the end
(`l[-1]` is the last element); anything out of range raises `IndexError`. -/
def pyGet (l : List α) (i : Int) : Except PyError α :=
  if pyIdx l.length i < 0 then .error .indexError
  else
    match l.get? (pyIdx l.length i).toNat with
    | some a => .ok a
    | none => .error .indexError

/-- Python list write `l[i] = a` (same index semantics as `pyGet`). -/
def pySet (l : List α) (i : Int) (a : α) : Except PyError (List α) :=
  if pyIdx l.length i < 0 then .error .indexError
  else if (pyIdx l.length i).toNat < l.length then .ok (l.set (pyIdx l.length i).toNat a)
  else .error .indexError

/-- Python `del l[i]` (same index semantics as `pyGet`). -/
def pyDelete (l : List α) (i : Int) : Except PyError (List α) :=
  if pyIdx l.length i < 0 then .error .indexError
  else if (pyIdx l.length i).toNat < l.length then .ok (l.eraseIdx (pyIdx l.length i).toNat)
  else .error .indexError

/-- Python `l.pop(0)`: raises `IndexError` on an empty list. -/
def pyPop0 (l : List α) : Except PyError (List α) :=
  match l with
  | [] => .error .indexError
  | _ :: t => .ok t

/-- Python `next(x for x in l if p x)`: raises `StopIteration` when nothing
matches. -/
def pyNext (p : α → Bool) (l : List α) : Except PyError α :=
  match l.find? p with
  | some a => .ok a
  | none => .error .stopIteration

/-- Python slice `l[-n:]` for a non-negative `n`.  For `n = 0` the slice is
`l[0:]`, i.e. the **whole** list (there is no negative zero). -/
def pySliceLast (n : Nat) (l : List α) : List α :=
  if n = 0 then l else l.drop (l.length - n)

/-- Python slice `l[:n]` for a non-negative `n`. -/
def pySliceFirst (n : Nat) (l : List α) : List α :=
  l.take n

/-- Python `sep.join(l)`. -/
def pyJoin (sep : String) (l : List String) : String :=
  match l with
  | [] => ""
  | s :: rest => rest.foldl (fun acc t => acc ++ sep ++ t) s

/-- Python `s.strip()`: drop leading and trailing whitespace.  (Python's
default whitespace set also contains `\x0b`/`\x0c`; the strings this is
applied to never contain those, so `Char.isWhitespace` is adequate.) -/
def pyStrip (s : String) : String :=
  ⟨((s.data.dropWhile Char.isWhitespace).reverse.dropWhile Char.isWhitespace).reverse⟩

/-- One left-to-right non-overlapping replacement pass over a character list,
exactly as Python's `str.replace` does it (an empty pattern is never used
here, and is treated as "no occurrence").  The `fuel` argument makes the
recursion structural; each step consumes at least one character, so starting
the fuel at the list's length never exhausts it. -/
def replaceAux (pat rep : List Char) : Nat → List Char → List Char
  | 0, l => l
  | _ + 1, [] => []
  | fuel + 1, c :: rest =>
    if pat.isPrefixOf (c :: rest) && !pat.isEmpty then
      rep ++ replaceAux pat rep fuel (rest.drop (pat.length - 1))
    else
      c :: replaceAux pat rep fuel rest

/-- Python `s.replace(pat, rep)`. -/
def pyReplace (s pat rep : String) : String :=
  ⟨replaceAux pat.data rep.data s.data.length s.data⟩

/-- Does `pat` occur in `l` as a contiguous sublist? -/
def containsSubList (pat : List Char) : List Char → Bool
  | [] => pat.isEmpty
  | c :: rest => pat.isPrefixOf (c :: rest) || containsSubList pat rest

/-- Does `pat` occur inside `s` as a contiguous substring? -/
def containsSub (s pat : String) : Bool :=
  containsSubList pat.data s.data

/-- Number of newline characters in a string. -/
def countNL (s : String) : Nat :=
  s.data.count '\n'

/-- Number of lines in a string: zero for the empty string, otherwise one more
than the number of `'\n'` separators. -/
def countLines (s : String) : Nat :=
  if s.data = [] then 0 else countNL s + 1

/-- Python `set.add`: keep the collection duplicate-free. -/
def insertSet (a : Nat) (l : List Nat) : List Nat :=
  if l.contains a then l else l ++ [a]

/-- Insert into a descending-sorted list. -/
def insertDesc (a : Nat) : List Nat → List Nat
  | [] => [a]
  | b :: t => if b ≤ a then a :: b :: t else b :: insertDesc a t

/-- Python `sorted(s, reverse=True)`. -/
def sortDesc (l : List Nat) : List Nat :=
  l.foldr insertDesc []

/-! ## The data model (azure.ai.formrecognizer result types) -/

/-- `DocumentSpan`: an offset+length range into the document's text stream. -/
structure DocumentSpan where
  offset : Nat
  length : Nat
deriving Repr, DecidableEq

/-- `BoundingRegion`: only the page number is consumed by the converter. -/
structure BoundingRegion where
  page_number : Nat
deriving Repr, DecidableEq

/-- `DocumentTableCell`.  `row_span`/`column_span` are optional in the SDK
(`None` and `0` are both falsy in Python, which is what the code tests). -/
structure DocumentTableCell where
  row_index : Nat
  column_index : Nat
  row_span : Option Nat
  column_span : Option Nat
  kind : String
  content : String
deriving Repr, DecidableEq

/-- `DocumentTable`.  Optional sequences (`bounding_regions`) are modelled as
lists; the code only ever tests their truthiness, which coincides with
emptiness. -/
structure DocumentTable where
  row_count : Nat
  column_count : Nat
  cells : List DocumentTableCell
  bounding_regions : List BoundingRegion
  spans : List DocumentSpan
deriving Repr, DecidableEq

/-- `DocumentLine`. -/
structure DocumentLine where
  content : String
  spans : List DocumentSpan
deriving Repr, DecidableEq

/-- `DocumentPage`. -/
structure DocumentPage where
  page_number : Nat
  lines : List DocumentLine
deriving Repr, DecidableEq

/-- `AnalyzeResult`: the parts the converter reads. -/
structure AnalyzeResult where
  pages : List DocumentPage
  tables : List DocumentTable
deriving Repr, DecidableEq

/-- A value stored in a document's `meta` dict. -/
inductive MetaVal where
  | str (s : String)
  | nat (n : Nat)
deriving Repr, DecidableEq

/-- A `meta` dict, as an association list. -/
abbrev Meta := List (String × MetaVal)

/-- Python dict assignment `m[k] = v`. -/
def metaSet (m : Meta) (k : String) (v : MetaVal) : Meta :=
  (k, v) :: (m : List (String × MetaVal)).filter (fun p => p.1 != k)

/-- Python dict lookup `m.get(k)`. -/
def metaLookup (m : Meta) (k : String) : Option MetaVal :=
  ((m : List (String × MetaVal)).find? (fun p => p.1 == k)).map (·.2)

/-- The content of a produced `Document`: a text string, or a pandas
`DataFrame` modelled as a header row plus data rows
(`pd.DataFrame(columns=table_list[0], data=table_list[1:])`). -/
inductive DocContent where
  | table (header : List String) (data : List (List String))
  | text (s : String)
deriving Repr, DecidableEq

/-- A produced haystack `Document` (the id derivation is out of scope of the
claims; `meta` is `none` when the Python value is `None`). -/
structure Document where
  content : DocContent
  meta : Option Meta
deriving Repr, DecidableEq

/-- The converter configuration fields read by the reconstruction code. -/
structure Config where
  preceding_context_len : Nat
  following_context_len : Nat
  merge_multiple_column_headers : Bool
  add_page_number : Bool
deriving Repr, DecidableEq

/-- Lines 235-236: strip the `:selected:`/`:unselected:` markers from a
cell's content (two successive single-pass replacements). -/
def sanitize (s : String) : String :=
  pyReplace (pyReplace s ":selected:" "") ":unselected:" ""

/-- The in-place sanitization of one cell (the code assigns back to
`cell.content`). -/
def sanitizeCell (c : DocumentTableCell) : DocumentTableCell :=
  { c with content := sanitize c.content }

/-- The in-place sanitization of one table's cells. -/
def sanitizeTable (t : DocumentTable) : DocumentTable :=
  { t with cells := t.cells.map sanitizeCell }

/-- The state of the caller's `AnalyzeResult` after `_convert_tables` has
returned normally: every cell of every table has been sanitized in place
(lines 235-236 run once per cell); nothing else is written. -/
def sanitizeResult (r : AnalyzeResult) : AnalyzeResult :=
  { r with tables := r.tables.map sanitizeTable }

/-! ## `_convert_tables` (azure.py lines 218-317) -/

/-- Line 228: `[[""] * table.column_count for _ in range(table.row_count)]`. -/
def mkGrid (row_count column_count : Nat) : List (List String) :=
  List.replicate row_count (List.replicate column_count "")

/-- The per-table mutable state of the cell loop (lines 227-231). -/
structure FillState where
  table_list : List (List String)
  additional_column_header_rows : List Nat
  caption : String
  row_idx_start : Nat
deriving Repr, DecidableEq

/-- The guard of lines 250-254: more than one row serves as column header. -/
def mergeCond (merge : Bool) (row_idx_start : Nat) (cell : DocumentTableCell) : Bool :=
  merge && cell.kind == "columnHeader" && decide (row_idx_start < cell.row_index)

/-- The grid update of line 256:
`table_list[0][cell.column_index + c] += "\n" + cell.content` (read row 0,
read the entry, write the appended entry, all with Python index semantics). -/
def placeCellMergeTL (st : FillState) (cell : DocumentTableCell) (c : Nat) :
    Except PyError (List (List String)) := do
  let row0 ← pyGet st.table_list 0
  let old ← pyGet row0 (cell.column_index + c)
  let row0' ← pySet row0 (cell.column_index + c) (old ++ "\n" ++ cell.content)
  pySet st.table_list 0 row0'

/-- The grid update of line 259:
`table_list[cell.row_index + r - row_idx_start][cell.column_index + c] =
cell.content`.  The row index is an `Int`: Python wraps negative indices. -/
def placeCellBodyTL (st : FillState) (cell : DocumentTableCell) (r c : Nat) :
    Except PyError (List (List String)) := do
  let row ← pyGet st.table_list ((cell.row_index : Int) + (r : Int) - (st.row_idx_start : Int))
  let row' ← pySet row (cell.column_index + c) cell.content
  pySet st.table_list ((cell.row_index : Int) + (r : Int) - (st.row_idx_start : Int)) row'

/-- One placement of a cell at span offsets `(r, c)` (lines 250-259): either
the multi-row-header merge (which also records the extra header row,
line 257) or the plain grid write. -/
def placeCell (merge : Bool) (st : FillState) (cell : DocumentTableCell) (r c : Nat) :
    Except PyError FillState :=
  if mergeCond merge st.row_idx_start cell then
    match placeCellMergeTL st cell c with
    | .error e => .error e
    | .ok tl =>
      .ok { st with
            table_list := tl
            additional_column_header_rows :=
              insertSet (cell.row_index - st.row_idx_start) st.additional_column_header_rows }
  else
    match placeCellBodyTL st cell r c with
    | .error e => .error e
    | .ok tl => .ok { st with table_list := tl }

/-- The span-expansion loops of lines 246-259: `column_span`/`row_span` that
are `None` or `0` (both falsy) become `0`, and `for c in range(column_span):
for r in range(row_span): ...`. -/
def expandCell (merge : Bool) (st : FillState) (cell : DocumentTableCell) :
    Except PyError FillState :=
  let column_span := cell.column_span.getD 0
  (List.range column_span).foldlM
    (fun st1 c =>
      let row_span := cell.row_span.getD 0
      (List.range row_span).foldlM (fun st2 r => placeCell merge st2 cell r c) st1)
    st

/-- The cell loop of lines 233-259 (`for idx, cell in enumerate(table.cells)`).
Each cell's content is sanitized first (lines 235-236); the first cell whose
`column_span` equals `column_count` becomes the caption: `table_list.pop(0)`,
`row_idx_start = 1`, `continue` (lines 240-244). -/
def processCells (merge : Bool) (colCount : Nat) :
    List DocumentTableCell → Nat → FillState → Except PyError FillState
  | [], _, st => .ok st
  | cell :: rest, idx, st =>
    let content := sanitize cell.content
    if idx == 0 && cell.column_span == some colCount then
      match pyPop0 st.table_list with
      | .error e => .error e
      | .ok tl =>
        processCells merge colCount rest (idx + 1)
          { st with caption := content, row_idx_start := 1, table_list := tl }
    else
      match expandCell merge st { cell with content := content } with
      | .error e => .error e
      | .ok st' => processCells merge colCount rest (idx + 1) st'

/-- Lines 261-263: delete the recorded extra-header rows, largest index
first (`for row_idx in sorted(additional_column_header_rows, reverse=True):
del table_list[row_idx]`). -/
def deleteRows : List (List String) → List Nat → Except PyError (List (List String))
  | tl, [] => .ok tl
  | tl, i :: rest =>
    match pyDelete tl (i : Int) with
    | .error e => .error e
    | .ok tl' => deleteRows tl' rest

/-- Grid construction for one table: the cell loop followed by the
extra-header-row deletion. -/
def fillCells (merge : Bool) (t : DocumentTable) : Except PyError FillState := do
  let st ← processCells merge t.column_count t.cells 0
    ⟨mkGrid t.row_count t.column_count, [], "", 0⟩
  let tl ← deleteRows st.table_list (sortDesc st.additional_column_header_rows)
  .ok { st with table_list := tl }

/-- Lines 266-271: resolve the page of the table's first bounding region via
`next(page for page in result.pages if page.page_number == ...)`;  `None`
when the table has no bounding regions. -/
def beginningPageOf (pages : List DocumentPage) (t : DocumentTable) :
    Except PyError (Option DocumentPage) :=
  match t.bounding_regions with
  | [] => .ok none
  | br :: _ =>
    match pyNext (fun page => page.page_number == br.page_number) pages with
    | .error e => .error e
    | .ok p => .ok (some p)

/-- A list comprehension `[line.content for line in lines if keep
line.spans[0].offset]`: evaluated left to right, raising `IndexError` at the
first line with no spans. -/
def contextLines (lines : List DocumentLine) (keep : Nat → Bool) :
    Except PyError (List String) :=
  lines.foldlM
    (fun acc line => do
      let s0 ← pyGet line.spans 0
      .ok (if keep s0.offset then acc ++ [line.content] else acc))
    []

/-- Lines 273-278: the qualifying line contents of an optional page
(`if table_beginning_page and table_beginning_page.lines:` — an absent page
or an empty/absent line list degrades to no lines). -/
def pageContextLines (op : Option DocumentPage) (keep : Nat → Bool) :
    Except PyError (List String) :=
  match op with
  | some p =>
    if p.lines.isEmpty then .ok []
    else contextLines p.lines keep
  | none => .ok ([] : List String)

/-- Lines 265-280: the preceding context.  `table_start_offset =
table.spans[0].offset` (raising `IndexError` when `spans` is empty), the last
`preceding_context_len` qualifying lines (Python slice `[-n:]`), the caption
appended on its own line, the whole stripped. -/
def precedingContextOf (cfg : Config) (pages : List DocumentPage) (t : DocumentTable)
    (caption : String) : Except PyError String := do
  let tbp ← beginningPageOf pages t
  let s0 ← pyGet t.spans 0
  let preceding_lines ← pageContextLines tbp (fun o => decide (o < s0.offset))
  .ok (pyStrip (pyJoin "\n" (pySliceLast cfg.preceding_context_len preceding_lines)
        ++ "\n" ++ caption))

/-- Lines 282-290: the page the table ends on (`table_beginning_page` when
there is exactly one bounding region, otherwise the page of the last one;
`None` without bounding regions). -/
def endPageOf (pages : List DocumentPage) (t : DocumentTable) :
    Except PyError (Option DocumentPage) :=
  if t.bounding_regions.length == 1 then
    beginningPageOf pages t
  else
    match t.bounding_regions.getLast? with
    | some br =>
      match pyNext (fun page => page.page_number == br.page_number) pages with
      | .error e => .error e
      | .ok p => .ok (some p)
    | none => .ok none

/-- Lines 282-299: the following context.  `table_end_offset =
table_start_offset + table.spans[0].length`, the first
`following_context_len` qualifying lines (Python slice `[:n]`). -/
def followingContextOf (cfg : Config) (pages : List DocumentPage) (t : DocumentTable) :
    Except PyError String := do
  let tep ← endPageOf pages t
  let s0 ← pyGet t.spans 0
  let following_lines ← pageContextLines tep (fun o => decide (s0.offset + s0.length < o))
  .ok (pyJoin "\n" (pySliceFirst cfg.following_context_len following_lines))

/-- Conversion of a single table (one iteration of the loop at line 226):
grid construction, contexts, meta tagging (lines 301-310: `deepcopy(meta)`
then the reserved keys, plus `page` when configured and available), and the
`pd.DataFrame(columns=table_list[0], data=table_list[1:])` document. -/
def convertTable (cfg : Config) (pages : List DocumentPage) (meta : Option Meta)
    (t : DocumentTable) : Except PyError Document := do
  let st ← fillCells cfg.merge_multiple_column_headers t
  let pc ← precedingContextOf cfg pages t st.caption
  let fc ← followingContextOf cfg pages t
  let base : Meta := match meta with | some m => m | none => []
  let m1 := metaSet (metaSet base "preceding_context" (.str pc))
      "following_context" (.str fc)
  let m2 :=
    match t.bounding_regions with
    | br :: _ => if cfg.add_page_number then metaSet m1 "page" (.nat br.page_number) else m1
    | [] => m1
  let header ← pyGet st.table_list 0
  .ok { content := .table header (st.table_list.drop 1), meta := some m2 }

/-- The `converted_tables` accumulation of the loop at line 226. -/
def convertTablesDocs (cfg : Config) (meta : Option Meta) (result : AnalyzeResult) :
    Except PyError (List Document) :=
  result.tables.foldlM
    (fun acc t => do
      let d ← convertTable cfg result.pages meta t
      .ok (acc ++ [d]))
    ([] : List Document)

/-- `_convert_tables` (lines 218-317).  Besides the produced documents it
returns the caller's `AnalyzeResult` as it is after the call: the cell loop
sanitizes every `cell.content` in place, so on normal return the result is
`sanitizeResult` of the input. -/
def convertTables (cfg : Config) (meta : Option Meta) (result : AnalyzeResult) :
    Except PyError (List Document × AnalyzeResult) := do
  let docs ← convertTablesDocs cfg meta result
  .ok (docs, sanitizeResult result)

/-! ## `_convert_text` (azure.py lines 319-343) -/

/-- Lines 323-328: record each table's first span under the page number of
its first bounding region (tables without bounding regions are skipped); the
flat list keeps the per-page insertion order of `defaultdict(list)`. -/
def spansByPageOf (tables : List DocumentTable) : Except PyError (List (Nat × DocumentSpan)) :=
  tables.foldlM
    (fun acc t =>
      match t.bounding_regions with
      | [] => .ok acc
      | br :: _ => do
        let s0 ← pyGet t.spans 0
        .ok (acc ++ [(br.page_number, s0)]))
    []

/-- Lines 334-337: `any(t.offset <= line.spans[0].offset <= t.offset +
t.length for t in tables_on_page)`.  Over an empty page-span list the
generator never evaluates `line.spans[0]`, so no `IndexError` can arise. -/
def lineInTable (tablesOnPage : List DocumentSpan) (line : DocumentLine) :
    Except PyError Bool :=
  match tablesOnPage with
  | [] => .ok false
  | _ :: _ => do
    let s0 ← pyGet line.spans 0
    .ok (tablesOnPage.any (fun t => t.offset ≤ s0.offset && s0.offset ≤ t.offset + t.length))

/-- `_convert_text` (lines 319-343): skip lines inside a table span, append
every other line's content plus `"\n"`, and a form feed after each page.
The `meta` dict is passed through unchanged. -/
def convertText (meta : Option Meta) (result : AnalyzeResult) : Except PyError Document := do
  let spansByPage ← spansByPageOf result.tables
  let text ← result.pages.foldlM
    (fun acc page => do
      let tablesOnPage := (spansByPage.filter (fun p => p.1 == page.page_number)).map (·.2)
      let acc' ← page.lines.foldlM
        (fun a line => do
          let inT ← lineInTable tablesOnPage line
          .ok (if inT then a else a ++ line.content ++ "\n"))
        acc
      .ok (acc' ++ "\x0c"))
    ""
  .ok { content := .text text, meta := meta }

/-! ## `_convert_tables_and_text` (azure.py lines 187-216) -/

/-- `_convert_tables_and_text`.  `validateLang` is the external
`BaseConverter.validate_language` collaborator (modelled from the spec §4.3:
a boolean language check).  The returned `Bool` records whether the warning
of lines 209-214 was logged.  Lines 205-207 iterate
`for _, row in table.content.iterrows(): for cell in row.values(): ...`;
pandas `Series.values` is a **property** holding an ndarray, so the call
`row.values()` raises `TypeError: 'numpy.ndarray' object is not callable`
for every data row. -/
def convertTablesAndText (cfg : Config) (validateLang : String → List String → Bool)
    (meta : Option Meta) (valid_languages : List String) (result : AnalyzeResult) :
    Except PyError (List Document × AnalyzeResult × Bool) := do
  let tp ← convertTables cfg meta result
  let text ← convertText meta tp.2
  let docs := tp.1 ++ [text]
  if valid_languages.isEmpty then
    .ok (docs, tp.2, false)
  else do
    let file_text0 := match text.content with | .text s => s | .table _ _ => ""
    let ft ← tp.1.foldlM
      (fun ft doc =>
        match doc.content with
        | .table _ data =>
          data.foldlM (fun _ _ => (.error .typeError : Except PyError String)) ft
        | .text _ => (.error .haystackError : Except PyError String))
      file_text0
    let warned := !(validateLang ft valid_languages)
    .ok (docs, tp.2, warned)

/-! ## The spec-side description of text reconstruction (§4.2) -/

/-- Follows the spec's words (§4.2 step 1): for every table with at least one
bounding region, record its first span under the page number of that first
bounding region. -/
def specTableSpans (result : AnalyzeResult) : List (Nat × DocumentSpan) :=
  result.tables.foldl
    (fun acc t =>
      match t.bounding_regions, t.spans with
      | br :: _, s :: _ => acc ++ [(br.page_number, s)]
      | _, _ => acc)
    []

/-- Follows the spec's words (§4.2 step 2): a line is inside a table if its
first span's offset lies within `[span.offset, span.offset + span.length]`
(inclusive) of any span recorded for that page. -/
def specLineInside (spans : List DocumentSpan) (line : DocumentLine) : Bool :=
  match line.spans with
  | [] => false
  | s0 :: _ => spans.any (fun t => t.offset ≤ s0.offset && s0.offset ≤ t.offset + t.length)

/-- Follows the spec's words (§4.2 step 2): walk the page's lines in order;
lines inside a table are skipped, all others appended followed by a newline. -/
def specLinesText (spans : List DocumentSpan) : List DocumentLine → String
  | [] => ""
  | l :: rest =>
    (if specLineInside spans l then "" else l.content ++ "\n") ++ specLinesText spans rest

/-- Follows the spec's words (§4.2 steps 2-3): each page contributes its
kept lines followed by a page-break marker (form feed), emitted
unconditionally. -/
def specPageText (spans : List DocumentSpan) (page : DocumentPage) : String :=
  specLinesText spans page.lines ++ "\x0c"

/-- Follows the spec's words (§4.2): walk the pages in order, each page's
lines against the spans recorded for that page. -/
def specPagesText (spansByPage : List (Nat × DocumentSpan)) : List DocumentPage → String
  | [] => ""
  | p :: rest =>
    specPageText ((spansByPage.filter (fun q => q.1 == p.page_number)).map (·.2)) p
      ++ specPagesText spansByPage rest

/-- Follows the spec's words (§4.2): the reconstructed body text. -/
def textSpec (result : AnalyzeResult) : String :=
  specPagesText (specTableSpans result) result.pages

/-! ## Concrete instances used by individual claims -/

/-- A 2×2 table with four ordinary cells, one data row in the resulting
`DataFrame`. -/
def tabC1 : DocumentTable :=
  { row_count := 2, column_count := 2
    cells := [⟨0, 0, some 1, some 1, "content", "A"⟩, ⟨0, 1, some 1, some 1, "content", "B"⟩,
              ⟨1, 0, some 1, some 1, "content", "C"⟩, ⟨1, 1, some 1, some 1, "content", "D"⟩]
    bounding_regions := [⟨1⟩], spans := [⟨0, 4⟩] }

/-- An analyze result holding `tabC1` and one empty page. -/
def resC1 : AnalyzeResult := { pages := [⟨1, []⟩], tables := [tabC1] }

/-- A 1×2 table whose single cell content carries a `:selected:` marker. -/
def tabC2 : DocumentTable :=
  { row_count := 1, column_count := 2
    cells := [⟨0, 0, some 1, some 1, "content", ":selected:x"⟩]
    bounding_regions := [], spans := [⟨0, 0⟩] }

/-- An analyze result holding `tabC2`. -/
def resC2 : AnalyzeResult := { pages := [], tables := [tabC2] }

/-- `resC2` after conversion: the cell's content has lost its marker. -/
def postC2 : AnalyzeResult :=
  { pages := []
    tables := [{ row_count := 1, column_count := 2
                 cells := [⟨0, 0, some 1, some 1, "content", "x"⟩]
                 bounding_regions := [], spans := [⟨0, 0⟩] }] }

/-- A table positioned at offset 100 on page 1. -/
def tabC3 : DocumentTable :=
  { row_count := 1, column_count := 1, cells := []
    bounding_regions := [⟨1⟩], spans := [⟨100, 5⟩] }

/-- Page 1 with two lines, both before `tabC3`. -/
def pageC3 : DocumentPage :=
  { page_number := 1, lines := [⟨"L1", [⟨0, 2⟩]⟩, ⟨"L2", [⟨3, 2⟩]⟩] }

/-- A 2×2 table whose single cell sits at column index 2: outside the
declared 2-column grid. -/
def tabC4 : DocumentTable :=
  { row_count := 2, column_count := 2
    cells := [⟨0, 2, some 1, some 1, "content", "X"⟩]
    bounding_regions := [], spans := [⟨0, 0⟩] }

/-- A 2×2 table with a caption cell spanning both columns and one body
cell. -/
def tabC5 : DocumentTable :=
  { row_count := 2, column_count := 2
    cells := [⟨0, 0, some 1, some 2, "content", "T"⟩, ⟨1, 0, some 1, some 1, "content", "A"⟩]
    bounding_regions := [], spans := [⟨0, 0⟩] }

/-- One table row of `columnHeader` cells, spans 1×1, one cell per content
entry, at consecutive column indices starting at `startCol`. -/
def headerRowCells (row startCol : Nat) : List String → List DocumentTableCell
  | [] => []
  | s :: rest =>
    ⟨row, startCol, some 1, some 1, "columnHeader", s⟩
      :: headerRowCells row (startCol + 1) rest

/-- A table made of an optional caption cell (spanning all columns) followed
by two stacked full-width `columnHeader` rows — the claim's two consecutive
header rows — of arbitrary column count `h0.length`. -/
def twoHeaderTable (cap : Option String) (h0 h1 : List String) : DocumentTable :=
  { row_count := (match cap with | some _ => 1 | none => 0) + 2
    column_count := h0.length
    cells :=
      (match cap with
       | some s => [⟨0, 0, some 1, some h0.length, "content", s⟩]
       | none => []) ++
      headerRowCells (match cap with | some _ => 1 | none => 0) 0 h0 ++
      headerRowCells ((match cap with | some _ => 1 | none => 0) + 1) 0 h1
    bounding_regions := []
    spans := [⟨0, 1⟩] }

/-- One page with lines L1 (offset 0, outside), L2 (offset 5, inside the
table span [4, 10]), L3 (offset 20, outside), and one table on that page. -/
def resC7 : AnalyzeResult :=
  { pages := [⟨1, [⟨"L1", [⟨0, 2⟩]⟩, ⟨"L2", [⟨5, 2⟩]⟩, ⟨"L3", [⟨20, 2⟩]⟩]⟩]
    tables := [{ row_count := 1, column_count := 1, cells := []
                 bounding_regions := [⟨1⟩], spans := [⟨4, 6⟩] }] }

/-- A cell whose `row_span` is reported as zero. -/
def cellC8 : DocumentTableCell := ⟨0, 0, some 0, some 2, "content", "Z"⟩

/-- A fill state with a fresh 2×3 grid. -/
def stC8 : FillState := ⟨mkGrid 2 3, [], "", 0⟩

/-- A table whose caption cell content re-creates a `:selected:` marker when
the single replacement pass removes the embedded occurrence:
`":selec" ++ ":selected:" ++ "ted:"` becomes `":selected:"`. -/
def tabC9 : DocumentTable :=
  { row_count := 2, column_count := 1
    cells := [⟨0, 0, some 1, some 1, "content", ":selec:selected:ted:"⟩]
    bounding_regions := [], spans := [⟨0, 0⟩] }

/-- The document produced for `tabC9`. -/
def docC9 : Document :=
  { content := .table [""] []
    meta := some [("following_context", .str ""), ("preceding_context", .str ":selected:")] }

/-- A table with bounding regions and valid (empty) cells but an empty
`spans` sequence. -/
def tabC10 : DocumentTable :=
  { row_count := 1, column_count := 1
    cells := [], bounding_regions := [⟨1⟩], spans := [] }

/-! ## Helper lemmas -/

lemma ok_bind {α β : Type} (a : α) (f : α → Except PyError β) :
    (Except.ok a >>= f) = f a := rfl

lemma error_bind {α β : Type} (e : PyError) (f : α → Except PyError β) :
    ((Except.error e : Except PyError α) >>= f) = .error e := rfl

lemma pure_eq_ok {α : Type} (a : α) : (pure a : Except PyError α) = .ok a := rfl

lemma foldlM_nil' {α β : Type} (f : β → α → Except PyError β) (b : β) :
    ([] : List α).foldlM f b = .ok b := rfl

lemma foldlM_cons' {α β : Type} (f : β → α → Except PyError β) (b : β) (x : α)
    (xs : List α) :
    (x :: xs).foldlM f b = f b x >>= fun b' => xs.foldlM f b' := rfl

/-- Folding a step that never changes the state succeeds with the initial
state. -/
lemma foldlM_ok_const {α β : Type} (l : List α) (b : β) :
    l.foldlM (fun s _ => (.ok s : Except PyError β)) b = .ok b := by
  induction l with
  | nil => rfl
  | cons x xs ih => rw [foldlM_cons', ok_bind]; exact ih

/-- An invariant preserved by every step of a successful `foldlM` holds of
its result. -/
lemma foldlM_invariant {α β : Type} (P : β → Prop) (f : β → α → Except PyError β)
    (l : List α) (b b' : β)
    (hstep : ∀ s x, P s → ∀ s', f s x = .ok s' → P s')
    (hb : P b) (h : l.foldlM f b = .ok b') : P b' := by
  induction l generalizing b with
  | nil =>
    rw [foldlM_nil'] at h
    cases h
    exact hb
  | cons x xs ih =>
    rw [foldlM_cons'] at h
    cases hf : f b x with
    | error e => rw [hf, error_bind] at h; cases h
    | ok s1 =>
      rw [hf, ok_bind] at h
      exact ih s1 (hstep b x hb s1 hf) h

lemma pySet_ok_length {α : Type} {l l' : List α} {i : Int} {a : α}
    (h : pySet l i a = .ok l') : l'.length = l.length := by
  unfold pySet at h
  split at h
  · cases h
  · split at h
    · cases h; exact List.length_set ..
    · cases h

/-- A successful merge-branch grid update preserves the number of rows. -/
lemma placeCellMergeTL_length {st : FillState} {cell : DocumentTableCell} {c : Nat}
    {tl : List (List String)} (h : placeCellMergeTL st cell c = .ok tl) :
    tl.length = st.table_list.length := by
  unfold placeCellMergeTL at h
  cases h0 : pyGet st.table_list 0 with
  | error e => rw [h0, error_bind] at h; cases h
  | ok row0 =>
    rw [h0, ok_bind] at h
    cases h1 : pyGet row0 (cell.column_index + c) with
    | error e => rw [h1, error_bind] at h; cases h
    | ok old =>
      rw [h1, ok_bind] at h
      cases h2 : pySet row0 (cell.column_index + c) (old ++ "\n" ++ cell.content) with
      | error e => rw [h2, error_bind] at h; cases h
      | ok row0' =>
        rw [h2, ok_bind] at h
        exact pySet_ok_length h

/-- A successful plain grid write preserves the number of rows. -/
lemma placeCellBodyTL_length {st : FillState} {cell : DocumentTableCell} {r c : Nat}
    {tl : List (List String)} (h : placeCellBodyTL st cell r c = .ok tl) :
    tl.length = st.table_list.length := by
  unfold placeCellBodyTL at h
  cases h0 : pyGet st.table_list
      ((cell.row_index : Int) + (r : Int) - (st.row_idx_start : Int)) with
  | error e => rw [h0, error_bind] at h; cases h
  | ok row =>
    rw [h0, ok_bind] at h
    cases h1 : pySet row (cell.column_index + c) cell.content with
    | error e => rw [h1, error_bind] at h; cases h
    | ok row' =>
      rw [h1, ok_bind] at h
      exact pySet_ok_length h

/-- What a successful `placeCell` does to the bookkeeping fields: caption and
row offset are untouched, the grid keeps its number of rows, and the
extra-header-row set only changes through the merge branch. -/
lemma placeCell_ok {merge : Bool} {st st' : FillState} {cell : DocumentTableCell}
    {r c : Nat} (h : placeCell merge st cell r c = .ok st') :
    st'.caption = st.caption ∧ st'.row_idx_start = st.row_idx_start ∧
    st'.table_list.length = st.table_list.length ∧
    (mergeCond merge st.row_idx_start cell = false →
      st'.additional_column_header_rows = st.additional_column_header_rows) := by
  unfold placeCell at h
  split at h
  next hmc =>
    cases hm : placeCellMergeTL st cell c with
    | error e => rw [hm] at h; cases h
    | ok tl =>
      rw [hm] at h
      cases h
      exact ⟨rfl, rfl, placeCellMergeTL_length hm, fun hf => by rw [hmc] at hf; cases hf⟩
  next hmc =>
    cases hb : placeCellBodyTL st cell r c with
    | error e => rw [hb] at h; cases h
    | ok tl =>
      rw [hb] at h
      cases h
      exact ⟨rfl, rfl, placeCellBodyTL_length hb, fun _ => rfl⟩

/-- A successful `expandCell` never touches caption or row offset, and keeps
the grid's row count. -/
lemma expandCell_ok {merge : Bool} {st st' : FillState} {cell : DocumentTableCell}
    (h : expandCell merge st cell = .ok st') :
    st'.caption = st.caption ∧ st'.row_idx_start = st.row_idx_start ∧
    st'.table_list.length = st.table_list.length := by
  unfold expandCell at h
  refine foldlM_invariant
    (fun s => s.caption = st.caption ∧ s.row_idx_start = st.row_idx_start ∧
      s.table_list.length = st.table_list.length) _ _ _ _ ?_ ⟨rfl, rfl, rfl⟩ h
  intro s x hP s' hs
  refine foldlM_invariant
    (fun u => u.caption = st.caption ∧ u.row_idx_start = st.row_idx_start ∧
      u.table_list.length = st.table_list.length) _ _ _ _ ?_ hP hs
  intro u y hPu u' hu
  obtain ⟨hc, hr, hl, _⟩ := placeCell_ok hu
  exact ⟨hc.trans hPu.1, hr.trans hPu.2.1, hl.trans hPu.2.2⟩

/-- A successful `expandCell` of a cell that can never take the merge branch
also leaves the recorded extra-header rows unchanged. -/
lemma expandCell_ok_no_merge {merge : Bool} {st st' : FillState}
    {cell : DocumentTableCell}
    (hmc : mergeCond merge st.row_idx_start cell = false)
    (h : expandCell merge st cell = .ok st') :
    st'.additional_column_header_rows = st.additional_column_header_rows := by
  unfold expandCell at h
  refine (foldlM_invariant
    (fun s => s.row_idx_start = st.row_idx_start ∧
      s.additional_column_header_rows = st.additional_column_header_rows)
    _ _ _ _ ?_ ⟨rfl, rfl⟩ h).2
  intro s x hP s' hs
  refine foldlM_invariant
    (fun u => u.row_idx_start = st.row_idx_start ∧
      u.additional_column_header_rows = st.additional_column_header_rows)
    _ _ _ _ ?_ hP hs
  intro u y hPu u' hu
  obtain ⟨_, hr, _, hadd⟩ := placeCell_ok hu
  have : mergeCond merge u.row_idx_start cell = false := by rw [hPu.1]; exact hmc
  exact ⟨hr.trans hPu.1, (hadd this).trans hPu.2⟩

lemma processCells_nil (merge : Bool) (colCount idx : Nat) (st : FillState) :
    processCells merge colCount [] idx st = .ok st := rfl

lemma processCells_cons (merge : Bool) (colCount : Nat) (cell : DocumentTableCell)
    (rest : List DocumentTableCell) (idx : Nat) (st : FillState) :
    processCells merge colCount (cell :: rest) idx st =
      if idx == 0 && cell.column_span == some colCount then
        match pyPop0 st.table_list with
        | .error e => .error e
        | .ok tl =>
          processCells merge colCount rest (idx + 1)
            { st with caption := sanitize cell.content, row_idx_start := 1, table_list := tl }
      else
        match expandCell merge st { cell with content := sanitize cell.content } with
        | .error e => .error e
        | .ok st' => processCells merge colCount rest (idx + 1) st' := rfl

/-- After the first cell, the caption branch can never fire again: a
successful tail run keeps caption and row offset. -/
lemma processCells_caption_const {merge : Bool} {colCount : Nat}
    {cells : List DocumentTableCell} {idx : Nat} {st st' : FillState}
    (hidx : idx ≠ 0)
    (h : processCells merge colCount cells idx st = .ok st') :
    st'.caption = st.caption ∧ st'.row_idx_start = st.row_idx_start := by
  induction cells generalizing idx st with
  | nil =>
    rw [processCells_nil] at h
    cases h
    exact ⟨rfl, rfl⟩
  | cons cell rest ih =>
    rw [processCells_cons] at h
    have hguard : (idx == 0 && cell.column_span == some colCount) = false := by
      have : (idx == 0) = false := by simpa using hidx
      rw [this, Bool.false_and]
    rw [hguard] at h
    simp only [Bool.false_eq_true, if_false] at h
    cases hexp : expandCell merge st { cell with content := sanitize cell.content } with
    | error e => rw [hexp] at h; cases h
    | ok st1 =>
      rw [hexp] at h
      obtain ⟨h1, h2⟩ := ih (Nat.succ_ne_zero idx) h
      obtain ⟨hc, hr, _⟩ := expandCell_ok hexp
      exact ⟨h1.trans hc, h2.trans hr⟩

/-- After the first cell, if no remaining cell can take the merge branch, a
successful tail run also keeps the extra-header-row set and the grid's row
count. -/
lemma processCells_no_merge_const {merge : Bool} {colCount : Nat}
    {cells : List DocumentTableCell} {idx : Nat} {st st' : FillState}
    (hidx : idx ≠ 0)
    (hmc : ∀ x ∈ cells, mergeCond merge st.row_idx_start x = false)
    (h : processCells merge colCount cells idx st = .ok st') :
    st'.additional_column_header_rows = st.additional_column_header_rows ∧
    st'.table_list.length = st.table_list.length := by
  induction cells generalizing idx st with
  | nil =>
    rw [processCells_nil] at h
    cases h
    exact ⟨rfl, rfl⟩
  | cons cell rest ih =>
    rw [processCells_cons] at h
    have hguard : (idx == 0 && cell.column_span == some colCount) = false := by
      have : (idx == 0) = false := by simpa using hidx
      rw [this, Bool.false_and]
    rw [hguard] at h
    simp only [Bool.false_eq_true, if_false] at h
    cases hexp : expandCell merge st { cell with content := sanitize cell.content } with
    | error e => rw [hexp] at h; cases h
    | ok st1 =>
      rw [hexp] at h
      have hmc0 : mergeCond merge st.row_idx_start cell = false := by
        have := hmc cell (List.mem_cons_self _ _)
        simpa [mergeCond] using this
      have hadd1 : st1.additional_column_header_rows = st.additional_column_header_rows :=
        expandCell_ok_no_merge (by simpa [mergeCond] using hmc0) hexp
      obtain ⟨_, hr1, hl1⟩ := expandCell_ok hexp
      have hmc1 : ∀ x ∈ rest, mergeCond merge st1.row_idx_start x = false := by
        intro x hx
        rw [hr1]
        exact hmc x (List.mem_cons_of_mem _ hx)
      obtain ⟨ha, hl⟩ := ih (Nat.succ_ne_zero idx) hmc1 h
      exact ⟨ha.trans hadd1, hl.trans hl1⟩

lemma pyGet_nat_lt {α : Type} (l : List α) (i : Nat) (h : i < l.length) :
    pyGet l (i : Int) = .ok l[i] := by
  have h0 : ¬((i : Int) < 0) := by exact_mod_cast Int.not_lt.mpr (Int.ofNat_nonneg i)
  simp [pyGet, pyIdx, h0, List.get?_eq_getElem?, List.getElem?_eq_getElem h]

lemma pySet_nat_ge {α : Type} (l : List α) (i : Nat) (a : α) (h : l.length ≤ i) :
    pySet l (i : Int) a = .error .indexError := by
  have h0 : ¬((i : Int) < 0) := by exact_mod_cast Int.not_lt.mpr (Int.ofNat_nonneg i)
  simp [pySet, pyIdx, h0, Nat.not_lt.mpr h]

lemma pySet_nat_lt {α : Type} (l : List α) (i : Nat) (a : α) (h : i < l.length) :
    pySet l (i : Int) a = .ok (l.set i a) := by
  have h0 : ¬((i : Int) < 0) := by exact_mod_cast Int.not_lt.mpr (Int.ofNat_nonneg i)
  simp [pySet, pyIdx, h0, h]

lemma pyGet_ok_nonneg {α : Type} {l : List α} {i : Int} {a : α} (hi : 0 ≤ i)
    (h : pyGet l i = .ok a) : l.get? i.toNat = some a := by
  have h0 : ¬(i < 0) := by omega
  unfold pyGet pyIdx at h
  rw [if_neg h0, if_neg h0] at h
  cases hg : l.get? i.toNat with
  | none => rw [hg] at h; cases h
  | some b => rw [hg] at h; cases h; rfl

lemma pySet_ok_nonneg {α : Type} {l l' : List α} {i : Int} {a : α} (hi : 0 ≤ i)
    (h : pySet l i a = .ok l') : l' = l.set i.toNat a := by
  have h0 : ¬(i < 0) := by omega
  unfold pySet pyIdx at h
  rw [if_neg h0, if_neg h0] at h
  split at h
  · cases h; rfl
  · cases h

lemma pyGet_zero_cons {α : Type} (a : α) (l : List α) :
    pyGet (a :: l) (0 : Int) = .ok a := rfl

lemma pyGet_one_cons {α : Type} (a b : α) (l : List α) :
    pyGet (a :: b :: l) (1 : Int) = .ok b := rfl

lemma pySet_zero_cons {α : Type} (a x : α) (l : List α) :
    pySet (a :: l) (0 : Int) x = .ok (x :: l) := by
  simp [pySet, pyIdx]

lemma pySet_one_cons {α : Type} (a b x : α) (l : List α) :
    pySet (a :: b :: l) (1 : Int) x = .ok (a :: x :: l) := by
  simp [pySet, pyIdx, List.set]

lemma get_append_len {α : Type} (pre : List α) (x : α) (post : List α) :
    (pre ++ x :: post).get? pre.length = some x := by
  induction pre with
  | nil => rfl
  | cons p ps ih => simpa using ih

lemma set_append_len {α : Type} (pre : List α) (x y : α) (post : List α) :
    (pre ++ x :: post).set pre.length y = pre ++ y :: post := by
  induction pre with
  | nil => rfl
  | cons p ps ih => simp [List.set, ih]

lemma insertSet_contains (a : Nat) (l : List Nat) :
    (insertSet a l).contains a = true := by
  unfold insertSet
  split
  next h => exact h
  next h => simp

lemma insertSet_idem (a : Nat) (l : List Nat) :
    insertSet a (insertSet a l) = insertSet a l := by
  show (if (insertSet a l).contains a = true
        then insertSet a l else insertSet a l ++ [a]) = insertSet a l
  rw [if_pos (insertSet_contains a l)]

lemma headerRowCells_length (row : Nat) (contents : List String) :
    ∀ startCol, (headerRowCells row startCol contents).length = contents.length := by
  induction contents with
  | nil => intro j; rfl
  | cons s rest ih => intro j; simp [headerRowCells, ih (j + 1)]

lemma zipWith_sanitize (l1 l2 : List String) :
    List.zipWith (fun b s => b ++ "\n" ++ sanitize s) l1 l2
      = List.zipWith (fun a b => a ++ "\n" ++ b) l1 (l2.map sanitize) := by
  induction l1 generalizing l2 with
  | nil => simp
  | cons x xs ih =>
    cases l2 with
    | nil => simp
    | cons y ys => simp [ih]

lemma mkGrid_length (rc cc : Nat) : (mkGrid rc cc).length = rc :=
  List.length_replicate ..

lemma mergeCond_false_of_kind {merge : Bool} {start : Nat} {cell : DocumentTableCell}
    (h : cell.kind ≠ "columnHeader") : mergeCond merge start cell = false := by
  have hk : (cell.kind == "columnHeader") = false := beq_eq_false_iff_ne.mpr h
  simp [mergeCond, hk]

lemma pyPop0_ok_length {α : Type} {l tl : List α} (h : pyPop0 l = .ok tl) :
    tl.length = l.length - 1 := by
  cases l with
  | nil => cases h
  | cons a t => cases h; simp

lemma metaFind_filter (m : Meta) (k k' : String) (h : k' ≠ k) :
    (m.filter (fun p => p.1 != k)).find? (fun p => p.1 == k')
      = m.find? (fun p => p.1 == k') := by
  induction m with
  | nil => rfl
  | cons q m ih =>
    by_cases hq : q.1 = k'
    · simp [List.filter_cons, List.find?_cons, hq, h]
    · by_cases hk : q.1 = k
      · have hkk : (k == k') = false := beq_eq_false_iff_ne.mpr (Ne.symm h)
        simp [List.filter_cons, List.find?_cons, hq, hk, hkk, ih]
      · simp [List.filter_cons, List.find?_cons, hq, hk, ih]

lemma metaLookup_metaSet_self (m : Meta) (k : String) (v : MetaVal) :
    metaLookup (metaSet m k v) k = some v := by
  simp [metaLookup, metaSet, List.find?_cons]

lemma metaLookup_metaSet_ne (m : Meta) (k k' : String) (v : MetaVal) (h : k' ≠ k) :
    metaLookup (metaSet m k v) k' = metaLookup m k' := by
  have hkk : (k == k') = false := beq_eq_false_iff_ne.mpr (Ne.symm h)
  simp only [metaLookup, metaSet, List.find?_cons, hkk, metaFind_filter m k k' h]

lemma countNL_append (a b : String) : countNL (a ++ b) = countNL a + countNL b := by
  simp [countNL, String.data_append, List.count_append]

lemma countNL_joinFold (rest : List String) (s : String)
    (h : ∀ x ∈ rest, countNL x = 0) :
    countNL (rest.foldl (fun acc t => acc ++ "\n" ++ t) s) = countNL s + rest.length := by
  induction rest generalizing s with
  | nil => simp
  | cons x xs ih =>
    rw [List.foldl_cons, ih _ (fun y hy => h y (List.mem_cons_of_mem _ hy))]
    have hx : countNL x = 0 := h x (List.mem_cons_self _ _)
    rw [countNL_append, countNL_append, hx]
    have h1 : countNL "\n" = 1 := rfl
    rw [h1]
    simp [List.length_cons]
    omega

lemma countNL_pyJoin (l : List String) (h : ∀ x ∈ l, countNL x = 0) :
    countNL (pyJoin "\n" l) = l.length - 1 := by
  cases l with
  | nil => rfl
  | cons s rest =>
    show countNL (rest.foldl (fun acc t => acc ++ "\n" ++ t) s) = (s :: rest).length - 1
    rw [countNL_joinFold rest s (fun y hy => h y (List.mem_cons_of_mem _ hy)),
      h s (List.mem_cons_self _ _)]
    simp

lemma countNL_pyStrip_le (s : String) : countNL (pyStrip s) ≤ countNL s := by
  show (((s.data.dropWhile Char.isWhitespace).reverse.dropWhile
      Char.isWhitespace).reverse).count '\n' ≤ s.data.count '\n'
  rw [List.count_reverse]
  calc ((s.data.dropWhile Char.isWhitespace).reverse.dropWhile
          Char.isWhitespace).count '\n'
      ≤ ((s.data.dropWhile Char.isWhitespace).reverse).count '\n' :=
        (List.dropWhile_sublist _).count_le _
    _ = (s.data.dropWhile Char.isWhitespace).count '\n' := List.count_reverse ..
    _ ≤ s.data.count '\n' := (List.dropWhile_sublist _).count_le _

lemma countLines_le (s : String) : countLines s ≤ countNL s + 1 := by
  unfold countLines
  split
  · exact Nat.zero_le _
  · exact Nat.le_refl _

lemma pySliceLast_length {α : Type} (n : Nat) (l : List α) (h : 1 ≤ n) :
    (pySliceLast n l).length ≤ n := by
  unfold pySliceLast
  rw [if_neg (by omega)]
  rw [List.length_drop]
  omega

lemma mem_pySliceLast {α : Type} {n : Nat} {l : List α} {x : α}
    (h : x ∈ pySliceLast n l) : x ∈ l := by
  unfold pySliceLast at h
  split at h
  · exact h
  · exact List.drop_subset _ _ h

lemma pyNext_ok_mem {α : Type} {p : α → Bool} {l : List α} {a : α}
    (h : pyNext p l = .ok a) : a ∈ l := by
  unfold pyNext at h
  cases hf : l.find? p with
  | none => rw [hf] at h; cases h
  | some b =>
    rw [hf] at h
    cases h
    exact List.mem_of_find?_eq_some hf

lemma beginningPageOf_mem {pages : List DocumentPage} {t : DocumentTable}
    {p : DocumentPage} (h : beginningPageOf pages t = .ok (some p)) : p ∈ pages := by
  unfold beginningPageOf at h
  cases hbr : t.bounding_regions with
  | nil => simp [hbr] at h
  | cons br brs =>
    simp only [hbr] at h
    cases hn : pyNext (fun page => page.page_number == br.page_number) pages with
    | error e => simp only [hn] at h; cases h
    | ok q =>
      simp only [hn] at h
      cases h
      exact pyNext_ok_mem hn

lemma endPageOf_mem {pages : List DocumentPage} {t : DocumentTable}
    {p : DocumentPage} (h : endPageOf pages t = .ok (some p)) : p ∈ pages := by
  unfold endPageOf at h
  split at h
  · exact beginningPageOf_mem h
  · cases hl : t.bounding_regions.getLast? with
    | none => simp [hl] at h
    | some br =>
      simp only [hl] at h
      cases hn : pyNext (fun page => page.page_number == br.page_number) pages with
      | error e => simp only [hn] at h; cases h
      | ok q =>
        simp only [hn] at h
        cases h
        exact pyNext_ok_mem hn

/-- Every string a successful `contextLines` run returns is the content of
one of the lines. -/
lemma contextLines_mem {lines : List DocumentLine} {keep : Nat → Bool}
    {out : List String} (h : contextLines lines keep = .ok out) :
    ∀ x ∈ out, ∃ line ∈ lines, x = line.content := by
  unfold contextLines at h
  suffices haux : ∀ (acc : List String),
      lines.foldlM (fun acc line => do
        let s0 ← pyGet line.spans 0
        Except.ok (if keep s0.offset then acc ++ [line.content] else acc)) acc = .ok out →
      ∀ x ∈ out, x ∈ acc ∨ ∃ line ∈ lines, x = line.content by
    intro x hx
    rcases haux [] h x hx with hfalse | hgood
    · cases hfalse
    · exact hgood
  clear h
  induction lines with
  | nil =>
    intro acc h x hx
    rw [foldlM_nil'] at h
    cases h
    exact Or.inl hx
  | cons line rest ih =>
    intro acc h x hx
    rw [foldlM_cons'] at h
    cases hs0 : pyGet line.spans 0 with
    | error e => simp only [hs0, error_bind] at h; cases h
    | ok s0 =>
      simp only [hs0, ok_bind] at h
      rcases ih _ h x hx with hacc | ⟨l2, hl2, hx2⟩
      · by_cases hk : keep s0.offset = true
        · rw [if_pos hk] at hacc
          rcases List.mem_append.mp hacc with h1 | h2
          · exact Or.inl h1
          · refine Or.inr ⟨line, List.mem_cons_self _ _, ?_⟩
            simpa using h2
        · rw [if_neg hk] at hacc
          exact Or.inl hacc
      · exact Or.inr ⟨l2, List.mem_cons_of_mem _ hl2, hx2⟩

/-- Every string of a successful `pageContextLines` run is the content of a
line of the given page. -/
lemma pageContextLines_mem {op : Option DocumentPage} {keep : Nat → Bool}
    {out : List String} (h : pageContextLines op keep = .ok out) :
    ∀ x ∈ out, ∃ p, op = some p ∧ ∃ line ∈ p.lines, x = line.content := by
  intro x hx
  cases op with
  | none =>
    simp only [pageContextLines] at h
    cases h
    cases hx
  | some p =>
    simp only [pageContextLines] at h
    by_cases hle : p.lines.isEmpty = true
    · rw [if_pos hle] at h
      cases h
      cases hx
    · rw [if_neg hle] at h
      exact ⟨p, rfl, contextLines_mem h x hx⟩

/-- The line bound for the preceding-context string. -/
lemma preceding_bound (pcl : Nat) (hpcl : 1 ≤ pcl) (pls : List String)
    (caption : String) (hls : ∀ x ∈ pls, countNL x = 0) (hcap : countNL caption = 0) :
    countLines (pyStrip (pyJoin "\n" (pySliceLast pcl pls) ++ "\n" ++ caption))
      ≤ pcl + 1 := by
  have htk : ∀ x ∈ pySliceLast pcl pls, countNL x = 0 :=
    fun x hx => hls x (mem_pySliceLast hx)
  have hlen : (pySliceLast pcl pls).length ≤ pcl := pySliceLast_length pcl pls hpcl
  have h1 : countNL (pyJoin "\n" (pySliceLast pcl pls))
      = (pySliceLast pcl pls).length - 1 := countNL_pyJoin _ htk
  have h2 : countNL (pyJoin "\n" (pySliceLast pcl pls) ++ "\n" ++ caption) ≤ pcl := by
    rw [countNL_append, countNL_append, h1, hcap]
    have h3 : countNL "\n" = 1 := rfl
    rw [h3]
    omega
  calc countLines (pyStrip (pyJoin "\n" (pySliceLast pcl pls) ++ "\n" ++ caption))
      ≤ countNL (pyStrip (pyJoin "\n" (pySliceLast pcl pls) ++ "\n" ++ caption)) + 1 :=
        countLines_le _
    _ ≤ countNL (pyJoin "\n" (pySliceLast pcl pls) ++ "\n" ++ caption) + 1 :=
        Nat.add_le_add_right (countNL_pyStrip_le _) 1
    _ ≤ pcl + 1 := Nat.add_le_add_right h2 1

/-- The line bound for the following-context string. -/
lemma following_bound (fcl : Nat) (fls : List String)
    (hls : ∀ x ∈ fls, countNL x = 0) :
    countLines (pyJoin "\n" (pySliceFirst fcl fls)) ≤ fcl := by
  have htk : ∀ x ∈ pySliceFirst fcl fls, countNL x = 0 :=
    fun x hx => hls x (List.take_subset _ _ hx)
  have hlen : (pySliceFirst fcl fls).length ≤ fcl := by
    simp [pySliceFirst]
  have h1 : countNL (pyJoin "\n" (pySliceFirst fcl fls))
      = (pySliceFirst fcl fls).length - 1 := countNL_pyJoin _ htk
  by_cases hj : (pyJoin "\n" (pySliceFirst fcl fls)).data = []
  · unfold countLines
    rw [if_pos hj]
    exact Nat.zero_le _
  · have hne : pySliceFirst fcl fls ≠ [] := by
      intro h0
      apply hj
      rw [h0]
      rfl
    have hge : 1 ≤ (pySliceFirst fcl fls).length :=
      Nat.succ_le_of_lt (List.length_pos.mpr hne)
    unfold countLines
    rw [if_neg hj, h1]
    omega

/-- The code's per-line table test agrees with the spec's: over an empty
span list it is `false` without reading the line's spans, otherwise it reads
`line.spans[0]` and checks the inclusive interval. -/
lemma lineInTable_spec (tablesOnPage : List DocumentSpan) (line : DocumentLine)
    (h : line.spans ≠ [] ∨ tablesOnPage = []) :
    lineInTable tablesOnPage line = .ok (specLineInside tablesOnPage line) := by
  cases tablesOnPage with
  | nil =>
    cases hls : line.spans with
    | nil => simp [lineInTable, specLineInside, hls]
    | cons s0 srest => simp [lineInTable, specLineInside, hls]
  | cons t ts =>
    rcases h with hs | h2
    · cases hls : line.spans with
      | nil => exact absurd hls hs
      | cons s0 srest =>
        have hget : pyGet (s0 :: srest) (0 : Int) = .ok s0 := rfl
        simp only [lineInTable, specLineInside, hls, hget, ok_bind]
    · cases h2

/-- The code's line loop of one page accumulates exactly the spec's kept
lines. -/
lemma pageLinesFold_spec (tablesOnPage : List DocumentSpan)
    (lines : List DocumentLine) :
    ∀ acc, (∀ line ∈ lines, line.spans ≠ [] ∨ tablesOnPage = []) →
    lines.foldlM (fun a line => do
        let inT ← lineInTable tablesOnPage line
        Except.ok (if inT then a else a ++ line.content ++ "\n")) acc
      = .ok (acc ++ specLinesText tablesOnPage lines) := by
  induction lines with
  | nil =>
    intro acc h
    rw [foldlM_nil', specLinesText, String.append_empty]
  | cons line rest ih =>
    intro acc h
    rw [foldlM_cons']
    rw [lineInTable_spec tablesOnPage line (h line (List.mem_cons_self _ _)), ok_bind]
    by_cases hI : specLineInside tablesOnPage line = true
    · rw [if_pos hI, ok_bind, ih acc (fun l hl => h l (List.mem_cons_of_mem _ hl)),
        specLinesText, hI, if_pos rfl, String.empty_append]
    · have hI' : specLineInside tablesOnPage line = false := by
        cases hb : specLineInside tablesOnPage line
        · rfl
        · exact absurd hb hI
      rw [if_neg (by rw [hI']; exact Bool.false_ne_true), ok_bind,
        ih (acc ++ line.content ++ "\n") (fun l hl => h l (List.mem_cons_of_mem _ hl)),
        specLinesText, hI']
      simp only [Bool.false_eq_true, if_false]
      rw [String.append_assoc, String.append_assoc,
        String.append_assoc line.content "\n" (specLinesText tablesOnPage rest)]

/-- The code's table-span recording agrees with the spec's, provided every
table that has a bounding region also has at least one span. -/
lemma spansByPageOf_aux (tables : List DocumentTable) :
    ∀ acc, (∀ t ∈ tables, t.bounding_regions ≠ [] → t.spans ≠ []) →
    tables.foldlM (fun acc t =>
        match t.bounding_regions with
        | [] => Except.ok acc
        | br :: _ => do
          let s0 ← pyGet t.spans 0
          Except.ok (acc ++ [(br.page_number, s0)])) acc
      = .ok (tables.foldl
        (fun acc t =>
          match t.bounding_regions, t.spans with
          | br :: _, sp :: _ => acc ++ [(br.page_number, sp)]
          | _, _ => acc)
        acc) := by
  induction tables with
  | nil => intro acc h; rfl
  | cons t rest ih =>
    intro acc h
    rw [foldlM_cons', List.foldl_cons]
    cases hbr : t.bounding_regions with
    | nil =>
      have hskip : (match t.bounding_regions, t.spans with
          | br :: _, sp :: _ => acc ++ [(br.page_number, sp)]
          | _, _ => acc) = acc := by
        rw [hbr]
      simp only [hbr, ok_bind, hskip]
      exact ih acc (fun x hx => h x (List.mem_cons_of_mem _ hx))
    | cons br brs =>
      have hsp : t.spans ≠ [] := h t (List.mem_cons_self _ _) (by rw [hbr]; simp)
      cases hspn : t.spans with
      | nil => exact absurd hspn hsp
      | cons sp sps =>
        have hget : pyGet (sp :: sps) (0 : Int) = .ok sp := rfl
        simp only [hbr, hspn, hget, ok_bind]
        exact ih (acc ++ [(br.page_number, sp)])
          (fun x hx => h x (List.mem_cons_of_mem _ hx))

lemma mem_insertDesc {a x : Nat} : ∀ {l : List Nat}, x ∈ insertDesc a l → x = a ∨ x ∈ l := by
  intro l
  induction l with
  | nil =>
    intro h
    simp [insertDesc] at h
    exact Or.inl h
  | cons b t ih =>
    intro h
    unfold insertDesc at h
    split at h
    · rcases List.mem_cons.mp h with h1 | h2
      · exact Or.inl h1
      · exact Or.inr h2
    · rcases List.mem_cons.mp h with h1 | h2
      · exact Or.inr (by rw [h1]; exact List.mem_cons_self _ _)
      · rcases ih h2 with h3 | h4
        · exact Or.inl h3
        · exact Or.inr (List.mem_cons_of_mem _ h4)

lemma insertDesc_sorted (a : Nat) : ∀ (l : List Nat),
    l.Sorted (· ≥ ·) → (insertDesc a l).Sorted (· ≥ ·) := by
  intro l
  induction l with
  | nil => intro _; simp [insertDesc]
  | cons b t ih =>
    intro hs
    rw [List.sorted_cons] at hs
    unfold insertDesc
    split
    next hba =>
      rw [List.sorted_cons]
      refine ⟨?_, List.sorted_cons.mpr hs⟩
      intro x hx
      rcases List.mem_cons.mp hx with h1 | h2
      · rw [h1]; exact hba
      · exact le_trans (hs.1 x h2) hba
    next hba =>
      rw [List.sorted_cons]
      refine ⟨?_, ih hs.2⟩
      intro x hx
      rcases mem_insertDesc hx with h1 | h2
      · rw [h1]; omega
      · exact hs.1 x h2

lemma insertDesc_perm (a : Nat) : ∀ (l : List Nat), (insertDesc a l).Perm (a :: l) := by
  intro l
  induction l with
  | nil => simp [insertDesc]
  | cons b t ih =>
    unfold insertDesc
    split
    · exact List.Perm.refl _
    · exact ((ih.cons b).trans (List.Perm.swap a b t))

/-- `sorted(..., reverse=True)`: the deletion order is descending. -/
lemma sortDesc_sorted (l : List Nat) : (sortDesc l).Sorted (· ≥ ·) := by
  induction l with
  | nil => simp [sortDesc]
  | cons x xs ih => exact insertDesc_sorted x (sortDesc xs) ih

/-- `sorted(..., reverse=True)` keeps exactly the recorded indices. -/
lemma sortDesc_perm (l : List Nat) : (sortDesc l).Perm l := by
  induction l with
  | nil => simp [sortDesc]
  | cons x xs ih =>
    show (insertDesc x (sortDesc xs)).Perm (x :: xs)
    exact (insertDesc_perm x (sortDesc xs)).trans (ih.cons x)

/-- A 1×1-span cell expands to exactly one placement. -/
lemma expandCell_single (merge : Bool) (st : FillState) (cell : DocumentTableCell)
    (hcs : cell.column_span = some 1) (hrs : cell.row_span = some 1) :
    expandCell merge st cell = placeCell merge st cell 0 0 := by
  have hr1 : List.range 1 = [0] := rfl
  simp only [expandCell, hcs, hrs, Option.getD_some, hr1, foldlM_cons', foldlM_nil']
  cases h : placeCell merge st cell 0 0 with
  | error e => rw [error_bind, error_bind]
  | ok st1 => rw [ok_bind, ok_bind]

/-- The cell loop processes an appended list sequentially, with the
enumeration index advanced by the first part's length. -/
lemma processCells_append (merge : Bool) (cc : Nat) :
    ∀ (l1 l2 : List DocumentTableCell) (idx : Nat) (st : FillState),
    processCells merge cc (l1 ++ l2) idx st
      = match processCells merge cc l1 idx st with
        | .error e => .error e
        | .ok st' => processCells merge cc l2 (idx + l1.length) st' := by
  intro l1
  induction l1 with
  | nil =>
    intro l2 idx st
    rw [List.nil_append, processCells_nil]
    simp
  | cons cell rest ih =>
    intro l2 idx st
    rw [List.cons_append, processCells_cons, processCells_cons]
    by_cases hg : (idx == 0 && cell.column_span == some cc) = true
    · rw [hg]
      simp only [if_true]
      cases hp : pyPop0 st.table_list with
      | error e => rfl
      | ok tl =>
        simp only [ih]
        have hlen : idx + 1 + rest.length = idx + (rest.length + 1) := by omega
        rw [List.length_cons, hlen]
    · have hg' : (idx == 0 && cell.column_span == some cc) = false := by
        cases hb : (idx == 0 && cell.column_span == some cc)
        · rfl
        · exact absurd hb hg
      rw [hg']
      simp only [Bool.false_eq_true, if_false]
      cases he : expandCell merge st { cell with content := sanitize cell.content } with
      | error e => rfl
      | ok st1 =>
        simp only [ih]
        have hlen : idx + 1 + rest.length = idx + (rest.length + 1) := by omega
        rw [List.length_cons, hlen]

lemma pyGet_of_get? {α : Type} {l : List α} {i : Nat} {a : α} (h : l.get? i = some a) :
    pyGet l (i : Int) = .ok a := by
  have h0 : ¬((i : Int) < 0) := by omega
  rw [List.get?_eq_getElem?] at h
  simp [pyGet, pyIdx, h0, h]

/-- Processing one full-width row of `columnHeader` cells whose row index
equals the current row offset: each cell is written into grid row 0 at its
own column (the merge branch cannot fire), sanitized. -/
lemma processCells_headerRow_first (merge : Bool) (cc : Nat) :
    ∀ (contents : List String) (idx : Nat) (st : FillState)
      (pre post : List String) (rows : List (List String)),
    (idx = 0 → cc ≠ 1) →
    st.table_list = (pre ++ post) :: rows →
    contents.length = post.length →
    processCells merge cc (headerRowCells st.row_idx_start pre.length contents) idx st
      = .ok { st with table_list := (pre ++ contents.map sanitize) :: rows } := by
  intro contents
  induction contents with
  | nil =>
    intro idx st pre post rows hcc htl hlen
    have hpost : post = [] := List.eq_nil_of_length_eq_zero (by simpa using hlen.symm)
    subst hpost
    rw [show headerRowCells st.row_idx_start pre.length [] = [] from rfl, processCells_nil]
    rw [List.append_nil] at htl
    simp [List.append_nil, ← htl]
  | cons s rest ih =>
    intro idx st pre post rows hcc htl hlen
    cases post with
    | nil => simp at hlen
    | cons b post2 =>
      rw [show headerRowCells st.row_idx_start pre.length (s :: rest)
          = (⟨st.row_idx_start, pre.length, some 1, some 1, "columnHeader", s⟩ :
             DocumentTableCell)
            :: headerRowCells st.row_idx_start (pre.length + 1) rest from rfl]
      rw [processCells_cons]
      have hguard : ((idx == 0 : Bool)
          && ((⟨st.row_idx_start, pre.length, some 1, some 1, "columnHeader", s⟩ :
               DocumentTableCell).column_span == some cc)) = false := by
        by_cases h0 : idx = 0
        · have hcc1 : cc ≠ 1 := hcc h0
          have hb : ((some 1 : Option Nat) == some cc) = false := by
            refine beq_eq_false_iff_ne.mpr ?_
            intro hx
            injection hx with hx
            exact hcc1 hx.symm
          show ((idx == 0) && ((some 1 : Option Nat) == some cc)) = false
          rw [hb, Bool.and_false]
        · have hb : (idx == 0) = false := by simpa using h0
          show ((idx == 0) && ((some 1 : Option Nat) == some cc)) = false
          rw [hb, Bool.false_and]
      rw [hguard]
      simp only [Bool.false_eq_true, if_false]
      have hcell : ({(⟨st.row_idx_start, pre.length, some 1, some 1, "columnHeader", s⟩ :
          DocumentTableCell) with content := sanitize s} : DocumentTableCell)
          = ⟨st.row_idx_start, pre.length, some 1, some 1, "columnHeader", sanitize s⟩ := rfl
      rw [hcell]
      have hmc : mergeCond merge st.row_idx_start
          ⟨st.row_idx_start, pre.length, some 1, some 1, "columnHeader", sanitize s⟩
          = false := by
        simp [mergeCond]
      have hbody : placeCellBodyTL st
          ⟨st.row_idx_start, pre.length, some 1, some 1, "columnHeader", sanitize s⟩ 0 0
          = .ok ((pre ++ sanitize s :: post2) :: rows) := by
        unfold placeCellBodyTL
        have hI : (((⟨st.row_idx_start, pre.length, some 1, some 1, "columnHeader",
            sanitize s⟩ : DocumentTableCell).row_index : Int) + ((0 : Nat) : Int)
            - (st.row_idx_start : Int)) = (0 : Int) := by
          show ((st.row_idx_start : Int) + ((0 : Nat) : Int) - (st.row_idx_start : Int))
            = (0 : Int)
          push_cast
          ring
        rw [hI, htl, pyGet_zero_cons, ok_bind]
        have hJ : (((⟨st.row_idx_start, pre.length, some 1, some 1, "columnHeader",
            sanitize s⟩ : DocumentTableCell).column_index : Int) + ((0 : Nat) : Int))
            = ((pre.length : Nat) : Int) := by
          show ((pre.length : Int) + ((0 : Nat) : Int)) = ((pre.length : Nat) : Int)
          push_cast
          ring
        rw [hJ, pySet_nat_lt _ _ _
          (by rw [List.length_append, List.length_cons]; omega)]
        rw [set_append_len, ok_bind, pySet_zero_cons]
      have hplace : placeCell merge st
          ⟨st.row_idx_start, pre.length, some 1, some 1, "columnHeader", sanitize s⟩ 0 0
          = .ok { st with table_list := (pre ++ sanitize s :: post2) :: rows } := by
        unfold placeCell
        rw [hmc]
        simp only [Bool.false_eq_true, if_false, hbody]
      rw [expandCell_single merge st _ rfl rfl]
      simp only [hplace]
      have ihx := ih (idx + 1)
        { st with table_list := (pre ++ sanitize s :: post2) :: rows }
        (pre ++ [sanitize s]) post2 rows
        (fun h => absurd h (Nat.succ_ne_zero idx))
        (by show (pre ++ sanitize s :: post2) :: rows
              = ((pre ++ [sanitize s]) ++ post2) :: rows
            simp)
        (by simpa using hlen)
      rw [show (pre ++ [sanitize s]).length = pre.length + 1 by simp] at ihx
      rw [List.append_assoc] at ihx
      exact ihx

/-- Processing one full-width row of `columnHeader` cells whose row index is
one past the current row offset, with merging enabled: every cell is folded
into grid row 0 by newline-append and row offset 1 is recorded as an extra
header row. -/
lemma processCells_headerRow_merge (cc : Nat) :
    ∀ (contents : List String) (idx : Nat) (st : FillState)
      (pre post : List String) (rows : List (List String)),
    idx ≠ 0 →
    st.table_list = (pre ++ post) :: rows →
    contents.length = post.length →
    processCells true cc (headerRowCells (st.row_idx_start + 1) pre.length contents) idx st
      = .ok { st with
              table_list :=
                (pre ++ List.zipWith (fun b s => b ++ "\n" ++ sanitize s) post contents)
                  :: rows
              additional_column_header_rows :=
                (match contents with
                 | [] => st.additional_column_header_rows
                 | _ :: _ => insertSet 1 st.additional_column_header_rows) } := by
  intro contents
  induction contents with
  | nil =>
    intro idx st pre post rows hidx htl hlen
    have hpost : post = [] := List.eq_nil_of_length_eq_zero (by simpa using hlen.symm)
    subst hpost
    rw [show headerRowCells (st.row_idx_start + 1) pre.length [] = [] from rfl,
        processCells_nil]
    rw [List.append_nil] at htl
    simp [List.append_nil, ← htl]
  | cons s rest ih =>
    intro idx st pre post rows hidx htl hlen
    cases post with
    | nil => simp at hlen
    | cons b post2 =>
      rw [show headerRowCells (st.row_idx_start + 1) pre.length (s :: rest)
          = (⟨st.row_idx_start + 1, pre.length, some 1, some 1, "columnHeader", s⟩ :
             DocumentTableCell)
            :: headerRowCells (st.row_idx_start + 1) (pre.length + 1) rest from rfl]
      rw [processCells_cons]
      have hguard : ((idx == 0 : Bool)
          && ((⟨st.row_idx_start + 1, pre.length, some 1, some 1, "columnHeader", s⟩ :
               DocumentTableCell).column_span == some cc)) = false := by
        have hb : (idx == 0) = false := by simpa using hidx
        show ((idx == 0) && ((some 1 : Option Nat) == some cc)) = false
        rw [hb, Bool.false_and]
      rw [hguard]
      simp only [Bool.false_eq_true, if_false]
      have hcell : ({(⟨st.row_idx_start + 1, pre.length, some 1, some 1, "columnHeader", s⟩ :
          DocumentTableCell) with content := sanitize s} : DocumentTableCell)
          = ⟨st.row_idx_start + 1, pre.length, some 1, some 1, "columnHeader",
             sanitize s⟩ := rfl
      rw [hcell]
      have hmc : mergeCond true st.row_idx_start
          ⟨st.row_idx_start + 1, pre.length, some 1, some 1, "columnHeader", sanitize s⟩
          = true := by
        simp [mergeCond]
      have hmergeTL : placeCellMergeTL st
          ⟨st.row_idx_start + 1, pre.length, some 1, some 1, "columnHeader", sanitize s⟩ 0
          = .ok ((pre ++ (b ++ "\n" ++ sanitize s) :: post2) :: rows) := by
        unfold placeCellMergeTL
        dsimp only
        have hJ : ((pre.length : Int) + ((0 : Nat) : Int)) = ((pre.length : Nat) : Int) := by
          push_cast
          ring
        rw [htl, pyGet_zero_cons, ok_bind, hJ,
            pyGet_of_get? (get_append_len pre b post2), ok_bind,
            pySet_nat_lt _ _ _ (by rw [List.length_append, List.length_cons]; omega),
            set_append_len, ok_bind, pySet_zero_cons]
      have hplace : placeCell true st
          ⟨st.row_idx_start + 1, pre.length, some 1, some 1, "columnHeader", sanitize s⟩ 0 0
          = .ok { st with
                  table_list := (pre ++ (b ++ "\n" ++ sanitize s) :: post2) :: rows
                  additional_column_header_rows :=
                    insertSet 1 st.additional_column_header_rows } := by
        unfold placeCell
        rw [hmc, if_pos rfl]
        simp only [hmergeTL]
        rw [Nat.add_sub_cancel_left]
      rw [expandCell_single true st _ rfl rfl]
      simp only [hplace]
      have ihx := ih (idx + 1)
        { st with
          table_list := (pre ++ (b ++ "\n" ++ sanitize s) :: post2) :: rows
          additional_column_header_rows := insertSet 1 st.additional_column_header_rows }
        (pre ++ [b ++ "\n" ++ sanitize s]) post2 rows
        (Nat.succ_ne_zero idx)
        (by show (pre ++ (b ++ "\n" ++ sanitize s) :: post2) :: rows
              = ((pre ++ [b ++ "\n" ++ sanitize s]) ++ post2) :: rows
            simp)
        (by simpa using hlen)
      dsimp only at ihx
      rw [show (pre ++ [b ++ "\n" ++ sanitize s]).length = pre.length + 1 by simp] at ihx
      rw [List.append_assoc] at ihx
      cases rest with
      | nil => exact ihx
      | cons r rs =>
        rw [insertSet_idem] at ihx
        exact ihx

/-- Processing one full-width row of `columnHeader` cells whose row index is
one past the current row offset, with merging disabled: every cell is written
into grid row 1 at its own column, sanitized, and no extra header row is
recorded. -/
lemma processCells_headerRow_second (cc : Nat) :
    ∀ (contents : List String) (idx : Nat) (st : FillState)
      (row0 pre post : List String) (rows : List (List String)),
    idx ≠ 0 →
    st.table_list = row0 :: (pre ++ post) :: rows →
    contents.length = post.length →
    processCells false cc (headerRowCells (st.row_idx_start + 1) pre.length contents) idx st
      = .ok { st with table_list := row0 :: (pre ++ contents.map sanitize) :: rows } := by
  intro contents
  induction contents with
  | nil =>
    intro idx st row0 pre post rows hidx htl hlen
    have hpost : post = [] := List.eq_nil_of_length_eq_zero (by simpa using hlen.symm)
    subst hpost
    rw [show headerRowCells (st.row_idx_start + 1) pre.length [] = [] from rfl,
        processCells_nil]
    rw [List.append_nil] at htl
    simp [List.append_nil, ← htl]
  | cons s rest ih =>
    intro idx st row0 pre post rows hidx htl hlen
    cases post with
    | nil => simp at hlen
    | cons b post2 =>
      rw [show headerRowCells (st.row_idx_start + 1) pre.length (s :: rest)
          = (⟨st.row_idx_start + 1, pre.length, some 1, some 1, "columnHeader", s⟩ :
             DocumentTableCell)
            :: headerRowCells (st.row_idx_start + 1) (pre.length + 1) rest from rfl]
      rw [processCells_cons]
      have hguard : ((idx == 0 : Bool)
          && ((⟨st.row_idx_start + 1, pre.length, some 1, some 1, "columnHeader", s⟩ :
               DocumentTableCell).column_span == some cc)) = false := by
        have hb : (idx == 0) = false := by simpa using hidx
        show ((idx == 0) && ((some 1 : Option Nat) == some cc)) = false
        rw [hb, Bool.false_and]
      rw [hguard]
      simp only [Bool.false_eq_true, if_false]
      have hcell : ({(⟨st.row_idx_start + 1, pre.length, some 1, some 1, "columnHeader", s⟩ :
          DocumentTableCell) with content := sanitize s} : DocumentTableCell)
          = ⟨st.row_idx_start + 1, pre.length, some 1, some 1, "columnHeader",
             sanitize s⟩ := rfl
      rw [hcell]
      have hmc : mergeCond false st.row_idx_start
          ⟨st.row_idx_start + 1, pre.length, some 1, some 1, "columnHeader", sanitize s⟩
          = false := by
        simp [mergeCond]
      have hbody : placeCellBodyTL st
          ⟨st.row_idx_start + 1, pre.length, some 1, some 1, "columnHeader", sanitize s⟩ 0 0
          = .ok (row0 :: (pre ++ sanitize s :: post2) :: rows) := by
        unfold placeCellBodyTL
        dsimp only
        have hI : ((st.row_idx_start + 1 : Nat) : Int) + ((0 : Nat) : Int)
            - (st.row_idx_start : Int) = (1 : Int) := by
          push_cast
          ring
        have hJ : ((pre.length : Int) + ((0 : Nat) : Int)) = ((pre.length : Nat) : Int) := by
          push_cast
          ring
        rw [hI, htl, pyGet_one_cons, ok_bind, hJ,
            pySet_nat_lt _ _ _ (by rw [List.length_append, List.length_cons]; omega),
            set_append_len, ok_bind, pySet_one_cons]
      have hplace : placeCell false st
          ⟨st.row_idx_start + 1, pre.length, some 1, some 1, "columnHeader", sanitize s⟩ 0 0
          = .ok { st with table_list := row0 :: (pre ++ sanitize s :: post2) :: rows } := by
        unfold placeCell
        rw [hmc]
        simp only [Bool.false_eq_true, if_false, hbody]
      rw [expandCell_single false st _ rfl rfl]
      simp only [hplace]
      have ihx := ih (idx + 1)
        { st with table_list := row0 :: (pre ++ sanitize s :: post2) :: rows }
        row0 (pre ++ [sanitize s]) post2 rows
        (Nat.succ_ne_zero idx)
        (by show row0 :: (pre ++ sanitize s :: post2) :: rows
              = row0 :: ((pre ++ [sanitize s]) ++ post2) :: rows
            simp)
        (by simpa using hlen)
      dsimp only at ihx
      rw [show (pre ++ [sanitize s]).length = pre.length + 1 by simp] at ihx
      rw [List.append_assoc] at ihx
      exact ihx

/-- Grid construction for the two-header-row family with merging enabled:
the first header row fills grid row 0, the second is newline-merged into
row 0, its destination row offset 1 is recorded, and the deletion pass
removes that (now empty) row, leaving the single collapsed header row. -/
lemma fillCells_twoHeader_merge (cap : Option String) (h0 h1 : List String)
    (hne : h0 ≠ []) (hlen : h1.length = h0.length)
    (hcap1 : cap = none → h0.length ≠ 1) :
    fillCells true (twoHeaderTable cap h0 h1)
      = .ok ⟨[List.zipWith (fun a b => a ++ "\n" ++ b) (h0.map sanitize)
                (h1.map sanitize)],
             [1],
             (match cap with | some s => sanitize s | none => ""),
             (match cap with | some _ => 1 | none => 0)⟩ := by
  cases h1 with
  | nil => exact absurd (List.eq_nil_of_length_eq_zero hlen.symm) hne
  | cons b1 t1 =>
  cases cap with
  | some s =>
    have hcells : (twoHeaderTable (some s) h0 (b1 :: t1)).cells
        = (⟨0, 0, some 1, some h0.length, "content", s⟩ : DocumentTableCell)
          :: (headerRowCells 1 0 h0 ++ headerRowCells 2 0 (b1 :: t1)) := by
      simp [twoHeaderTable]
    have hstep0 : processCells true h0.length
        ((⟨0, 0, some 1, some h0.length, "content", s⟩ : DocumentTableCell)
          :: (headerRowCells 1 0 h0 ++ headerRowCells 2 0 (b1 :: t1))) 0
        ⟨List.replicate h0.length "" :: List.replicate h0.length ""
           :: [List.replicate h0.length ""], [], "", 0⟩
        = processCells true h0.length
            (headerRowCells 1 0 h0 ++ headerRowCells 2 0 (b1 :: t1)) 1
            ⟨[List.replicate h0.length "", List.replicate h0.length ""], [],
              sanitize s, 1⟩ := by
      rw [processCells_cons]
      have hguard : ((0 == 0 : Bool)
          && ((⟨0, 0, some 1, some h0.length, "content", s⟩ :
               DocumentTableCell).column_span == some h0.length)) = true := by
        show ((0 == 0 : Bool) && ((some h0.length : Option Nat) == some h0.length)) = true
        simp
      rw [hguard, if_pos rfl]
      rfl
    have E1 := processCells_headerRow_first true h0.length h0 1
      ⟨[List.replicate h0.length "", List.replicate h0.length ""], [], sanitize s, 1⟩
      [] (List.replicate h0.length "") [List.replicate h0.length ""]
      (fun h => absurd h one_ne_zero)
      (by simp)
      (by simp)
    simp only [List.length_nil, List.nil_append] at E1
    have E2 := processCells_headerRow_merge h0.length (b1 :: t1) (1 + h0.length)
      ⟨(h0.map sanitize) :: [List.replicate h0.length ""], [], sanitize s, 1⟩
      [] (h0.map sanitize) [List.replicate h0.length ""]
      (by omega)
      (by simp)
      (by simpa using hlen)
    simp only [List.length_nil, List.nil_append] at E2
    rw [zipWith_sanitize] at E2
    have hsplit := processCells_append true h0.length
      (headerRowCells 1 0 h0) (headerRowCells 2 0 (b1 :: t1)) 1
      ⟨[List.replicate h0.length "", List.replicate h0.length ""], [], sanitize s, 1⟩
    simp only [E1] at hsplit
    rw [headerRowCells_length] at hsplit
    rw [E2] at hsplit
    unfold fillCells
    rw [show (twoHeaderTable (some s) h0 (b1 :: t1)).column_count = h0.length from rfl]
    rw [show (twoHeaderTable (some s) h0 (b1 :: t1)).row_count = 3 from rfl]
    rw [hcells]
    rw [show mkGrid 3 h0.length
        = List.replicate h0.length "" :: List.replicate h0.length ""
            :: [List.replicate h0.length ""] from rfl]
    rw [hstep0, hsplit]
    rfl
  | none =>
    have hcells : (twoHeaderTable none h0 (b1 :: t1)).cells
        = headerRowCells 0 0 h0 ++ headerRowCells 1 0 (b1 :: t1) := by
      simp [twoHeaderTable]
    have E1 := processCells_headerRow_first true h0.length h0 0
      ⟨[List.replicate h0.length "", List.replicate h0.length ""], [], "", 0⟩
      [] (List.replicate h0.length "") [List.replicate h0.length ""]
      (fun _ => hcap1 rfl)
      (by simp)
      (by simp)
    simp only [List.length_nil, List.nil_append] at E1
    have E2 := processCells_headerRow_merge h0.length (b1 :: t1) (0 + h0.length)
      ⟨(h0.map sanitize) :: [List.replicate h0.length ""], [], "", 0⟩
      [] (h0.map sanitize) [List.replicate h0.length ""]
      (by have h := List.length_pos.mpr hne; omega)
      (by simp)
      (by simpa using hlen)
    simp only [List.length_nil, List.nil_append] at E2
    rw [zipWith_sanitize] at E2
    have hsplit := processCells_append true h0.length
      (headerRowCells 0 0 h0) (headerRowCells 1 0 (b1 :: t1)) 0
      ⟨[List.replicate h0.length "", List.replicate h0.length ""], [], "", 0⟩
    simp only [E1] at hsplit
    rw [headerRowCells_length] at hsplit
    rw [E2] at hsplit
    unfold fillCells
    rw [show (twoHeaderTable none h0 (b1 :: t1)).column_count = h0.length from rfl]
    rw [show (twoHeaderTable none h0 (b1 :: t1)).row_count = 2 from rfl]
    rw [hcells]
    rw [show mkGrid 2 h0.length
        = List.replicate h0.length "" :: [List.replicate h0.length ""] from rfl]
    rw [hsplit]
    rfl

/-- Grid construction for the two-header-row family with merging disabled:
both header rows are written to their own grid rows, no extra header row is
recorded, and the deletion pass removes nothing. -/
lemma fillCells_twoHeader_nomerge (cap : Option String) (h0 h1 : List String)
    (hne : h0 ≠ []) (hlen : h1.length = h0.length)
    (hcap1 : cap = none → h0.length ≠ 1) :
    fillCells false (twoHeaderTable cap h0 h1)
      = .ok ⟨[h0.map sanitize, h1.map sanitize],
             [],
             (match cap with | some s => sanitize s | none => ""),
             (match cap with | some _ => 1 | none => 0)⟩ := by
  cases cap with
  | some s =>
    have hcells : (twoHeaderTable (some s) h0 h1).cells
        = (⟨0, 0, some 1, some h0.length, "content", s⟩ : DocumentTableCell)
          :: (headerRowCells 1 0 h0 ++ headerRowCells 2 0 h1) := by
      simp [twoHeaderTable]
    have hstep0 : processCells false h0.length
        ((⟨0, 0, some 1, some h0.length, "content", s⟩ : DocumentTableCell)
          :: (headerRowCells 1 0 h0 ++ headerRowCells 2 0 h1)) 0
        ⟨List.replicate h0.length "" :: List.replicate h0.length ""
           :: [List.replicate h0.length ""], [], "", 0⟩
        = processCells false h0.length
            (headerRowCells 1 0 h0 ++ headerRowCells 2 0 h1) 1
            ⟨[List.replicate h0.length "", List.replicate h0.length ""], [],
              sanitize s, 1⟩ := by
      rw [processCells_cons]
      have hguard : ((0 == 0 : Bool)
          && ((⟨0, 0, some 1, some h0.length, "content", s⟩ :
               DocumentTableCell).column_span == some h0.length)) = true := by
        show ((0 == 0 : Bool) && ((some h0.length : Option Nat) == some h0.length)) = true
        simp
      rw [hguard, if_pos rfl]
      rfl
    have E1 := processCells_headerRow_first false h0.length h0 1
      ⟨[List.replicate h0.length "", List.replicate h0.length ""], [], sanitize s, 1⟩
      [] (List.replicate h0.length "") [List.replicate h0.length ""]
      (fun h => absurd h one_ne_zero)
      (by simp)
      (by simp)
    simp only [List.length_nil, List.nil_append] at E1
    have E2 := processCells_headerRow_second h0.length h1 (1 + h0.length)
      ⟨(h0.map sanitize) :: [List.replicate h0.length ""], [], sanitize s, 1⟩
      (h0.map sanitize) [] (List.replicate h0.length "") []
      (by omega)
      (by simp)
      (by simpa using hlen)
    simp only [List.length_nil, List.nil_append] at E2
    have hsplit := processCells_append false h0.length
      (headerRowCells 1 0 h0) (headerRowCells 2 0 h1) 1
      ⟨[List.replicate h0.length "", List.replicate h0.length ""], [], sanitize s, 1⟩
    simp only [E1] at hsplit
    rw [headerRowCells_length] at hsplit
    rw [E2] at hsplit
    unfold fillCells
    rw [show (twoHeaderTable (some s) h0 h1).column_count = h0.length from rfl]
    rw [show (twoHeaderTable (some s) h0 h1).row_count = 3 from rfl]
    rw [hcells]
    rw [show mkGrid 3 h0.length
        = List.replicate h0.length "" :: List.replicate h0.length ""
            :: [List.replicate h0.length ""] from rfl]
    rw [hstep0, hsplit]
    rfl
  | none =>
    have hcells : (twoHeaderTable none h0 h1).cells
        = headerRowCells 0 0 h0 ++ headerRowCells 1 0 h1 := by
      simp [twoHeaderTable]
    have E1 := processCells_headerRow_first false h0.length h0 0
      ⟨[List.replicate h0.length "", List.replicate h0.length ""], [], "", 0⟩
      [] (List.replicate h0.length "") [List.replicate h0.length ""]
      (fun _ => hcap1 rfl)
      (by simp)
      (by simp)
    simp only [List.length_nil, List.nil_append] at E1
    have E2 := processCells_headerRow_second h0.length h1 (0 + h0.length)
      ⟨(h0.map sanitize) :: [List.replicate h0.length ""], [], "", 0⟩
      (h0.map sanitize) [] (List.replicate h0.length "") []
      (by have h := List.length_pos.mpr hne; omega)
      (by simp)
      (by simpa using hlen)
    simp only [List.length_nil, List.nil_append] at E2
    have hsplit := processCells_append false h0.length
      (headerRowCells 0 0 h0) (headerRowCells 1 0 h1) 0
      ⟨[List.replicate h0.length "", List.replicate h0.length ""], [], "", 0⟩
    simp only [E1] at hsplit
    rw [headerRowCells_length] at hsplit
    rw [E2] at hsplit
    unfold fillCells
    rw [show (twoHeaderTable none h0 h1).column_count = h0.length from rfl]
    rw [show (twoHeaderTable none h0 h1).row_count = 2 from rfl]
    rw [hcells]
    rw [show mkGrid 2 h0.length
        = List.replicate h0.length "" :: [List.replicate h0.length ""] from rfl]
    rw [hsplit]
    rfl

/-- The code's page loop accumulates exactly the spec's page texts, form
feeds included. -/
lemma pagesFold_spec (spansByPage : List (Nat × DocumentSpan))
    (pages : List DocumentPage) :
    ∀ acc, (∀ p ∈ pages, ∀ line ∈ p.lines, line.spans ≠ []) →
    pages.foldlM (fun acc page => do
        let tablesOnPage := (spansByPage.filter
          (fun (q : Nat × DocumentSpan) => q.1 == page.page_number)).map
          (fun (x : Nat × DocumentSpan) => x.2)
        let acc' ← page.lines.foldlM (fun a line => do
            let inT ← lineInTable tablesOnPage line
            Except.ok (if inT then a else a ++ line.content ++ "\n")) acc
        Except.ok (acc' ++ "\x0c")) acc
      = .ok (acc ++ specPagesText spansByPage pages) := by
  induction pages with
  | nil =>
    intro acc h
    rw [foldlM_nil', specPagesText, String.append_empty]
  | cons p rest ih =>
    intro acc h
    simp only [foldlM_cons']
    rw [pageLinesFold_spec ((spansByPage.filter
        (fun (q : Nat × DocumentSpan) => q.1 == p.page_number)).map
        (fun (x : Nat × DocumentSpan) => x.2))
        p.lines acc (fun l hl => Or.inl (h p (List.mem_cons_self _ _) l hl)),
      ok_bind, ok_bind,
      ih ((acc ++ specLinesText ((spansByPage.filter
        (fun (q : Nat × DocumentSpan) => q.1 == p.page_number)).map
        (fun (x : Nat × DocumentSpan) => x.2)) p.lines) ++ "\x0c")
        (fun q hq => h q (List.mem_cons_of_mem _ hq)),
      specPagesText]
    have hpt : specPageText ((spansByPage.filter
        (fun (q : Nat × DocumentSpan) => q.1 == p.page_number)).map
        (fun (x : Nat × DocumentSpan) => x.2)) p
        = specLinesText ((spansByPage.filter
          (fun (q : Nat × DocumentSpan) => q.1 == p.page_number)).map
          (fun (x : Nat × DocumentSpan) => x.2)) p.lines ++ "\x0c" := rfl
    rw [hpt, String.append_assoc acc, String.append_assoc acc]

/-- **C7.** Text reconstruction implements the spec's description exactly:
skip the lines whose first span offset falls inside (inclusively) a table
span recorded for the page of that table's first bounding region, emit every
other line followed by a newline, and a form feed after every page — for
inputs whose lines and (region-bearing) tables carry at least one span, as
the service produces them. -/
theorem convertText_matches_spec (meta : Option Meta) (result : AnalyzeResult)
    (htab : ∀ t ∈ result.tables, t.bounding_regions ≠ [] → t.spans ≠ [])
    (hline : ∀ p ∈ result.pages, ∀ line ∈ p.lines, line.spans ≠ []) :
    convertText meta result = .ok { content := .text (textSpec result), meta := meta } := by
  have hsp : spansByPageOf result.tables = .ok (specTableSpans result) := by
    unfold spansByPageOf specTableSpans
    exact spansByPageOf_aux result.tables [] htab
  unfold convertText
  rw [hsp, ok_bind,
    pagesFold_spec (specTableSpans result) result.pages "" hline, ok_bind,
    String.empty_append]
  rfl

/-- **C7 witness.** On a page with L1 (outside), L2 (inside the table span
`[4, 10]`), L3 (outside), the reconstructed text is exactly
`"L1\nL3\n"` followed by a form feed. -/
theorem convertText_matches_spec_witness :
    convertText none resC7 = .ok { content := .text "L1\nL3\n\x0c", meta := none } :=
  convertText_matches_spec none resC7 (by decide) (by decide)

/-- **C1.** The claim says a failed language validation only logs a warning
and the document list is still returned.  On `resC1` (one table with one data
row) with a non-empty language list, `_convert_tables_and_text` instead
raises `TypeError` at `row.values()` (pandas `Series.values` is a property,
not a method) before `validate_language` is ever consulted. -/
theorem convert_language_check_raises_typeError :
    convertTablesAndText ⟨3, 3, true, true⟩ (fun _ _ => false) none ["en"] resC1
      = .error .typeError ∧
    convertTablesAndText ⟨3, 3, true, true⟩ (fun _ _ => false) none [] resC1
      = .ok ([{ content := .table ["A", "B"] [["C", "D"]]
                meta := some [("page", .nat 1), ("following_context", .str "")
                              , ("preceding_context", .str "")] },
              { content := .text "\x0c", meta := none }],
             sanitizeResult resC1, false) :=
  ⟨by rfl, by rfl⟩

/-- **C2 counterexample.** `_convert_tables` mutates its input: after a
successful call on `resC2` the caller's `AnalyzeResult` has lost the
`:selected:` marker from the cell content, so it no longer equals its value
before the call. -/
theorem convertTables_mutates_cell_content :
    Except.map Prod.snd (convertTables ⟨3, 3, true, true⟩ none resC2) = .ok postC2 ∧
    postC2 ≠ resC2 :=
  ⟨by rfl, by decide⟩

/-- **C3 counterexample.** With `preceding_context_len = 0` the Python slice
`preceding_lines[-0:]` is the whole list, so the preceding context keeps
every preceding line: here two lines, although the claim allows at most
`0` lines of page text plus the caption line. -/
theorem preceding_context_len_zero_keeps_all_lines :
    precedingContextOf ⟨0, 3, true, true⟩ [pageC3] tabC3 "" = .ok "L1\nL2" ∧
    countLines "L1\nL2" = 2 ∧ ¬(countLines "L1\nL2" ≤ 0 + 1) :=
  ⟨by rfl, by rfl, by decide⟩

/-- **C4 counterexample.** A cell whose column index exceeds the declared
`column_count` makes `_convert_tables` raise Python's generic `IndexError`
from the list write, not the `MalformedTableResult` error the claim
prescribes. -/
theorem malformed_table_raises_indexError_not_malformed :
    convertTables ⟨3, 3, true, true⟩ none ⟨[], [tabC4]⟩ = .error .indexError ∧
    PyError.indexError ≠ PyError.malformedTableResult :=
  ⟨by rfl, by decide⟩

/-- **C9 counterexample.** Sanitization is a single left-to-right
replacement pass, so a caption content of `":selec" ++ ":selected:" ++
"ted:"` sanitizes to `":selected:"`: the caption stored in
`preceding_context` still contains a selection-state marker. -/
theorem caption_marker_survives_sanitization :
    convertTable ⟨3, 3, true, true⟩ [] none tabC9 = .ok docC9 ∧
    docC9.meta = some [("following_context", .str "")
                       , ("preceding_context", .str ":selected:")] ∧
    containsSub ":selected:" ":selected:" = true :=
  ⟨by rfl, by rfl, by rfl⟩

/-- **C3 amended.** For `preceding_context_len ≥ 1` the preceding context
holds at most `preceding_context_len` lines of page text plus the caption
line, and for every `following_context_len ≥ 0` the following context holds
at most `following_context_len` lines (newline-free line contents and
caption assumed, as produced by the layout service). -/
theorem context_line_bounds
    (cfg : Config) (pages : List DocumentPage) (t : DocumentTable)
    (caption s s' : String)
    (hpcl : 1 ≤ cfg.preceding_context_len)
    (hcap : countNL caption = 0)
    (hlines : ∀ p ∈ pages, ∀ line ∈ p.lines, countNL line.content = 0)
    (hpre : precedingContextOf cfg pages t caption = .ok s)
    (hfol : followingContextOf cfg pages t = .ok s') :
    countLines s ≤ cfg.preceding_context_len + 1 ∧
    countLines s' ≤ cfg.following_context_len := by
  constructor
  · unfold precedingContextOf at hpre
    cases hbp : beginningPageOf pages t with
    | error e => rw [hbp, error_bind] at hpre; cases hpre
    | ok tbp =>
      rw [hbp, ok_bind] at hpre
      cases hs0 : pyGet t.spans 0 with
      | error e => rw [hs0, error_bind] at hpre; cases hpre
      | ok s0 =>
        rw [hs0, ok_bind] at hpre
        cases hpl : pageContextLines tbp (fun o => decide (o < s0.offset)) with
        | error e => rw [hpl, error_bind] at hpre; cases hpre
        | ok pls =>
          rw [hpl, ok_bind] at hpre
          cases hpre
          have hls : ∀ x ∈ pls, countNL x = 0 := by
            intro x hx
            obtain ⟨p, hp, line, hlm, hxc⟩ := pageContextLines_mem hpl x hx
            rw [hxc]
            rw [hp] at hbp
            exact hlines p (beginningPageOf_mem hbp) line hlm
          exact preceding_bound _ hpcl pls caption hls hcap
  · unfold followingContextOf at hfol
    cases hep : endPageOf pages t with
    | error e => rw [hep, error_bind] at hfol; cases hfol
    | ok tep =>
      rw [hep, ok_bind] at hfol
      cases hs0 : pyGet t.spans 0 with
      | error e => rw [hs0, error_bind] at hfol; cases hfol
      | ok s0 =>
        rw [hs0, ok_bind] at hfol
        cases hfl : pageContextLines tep (fun o => decide (s0.offset + s0.length < o)) with
        | error e => rw [hfl, error_bind] at hfol; cases hfol
        | ok fls =>
          rw [hfl, ok_bind] at hfol
          cases hfol
          have hls : ∀ x ∈ fls, countNL x = 0 := by
            intro x hx
            obtain ⟨p, hp, line, hlm, hxc⟩ := pageContextLines_mem hfl x hx
            rw [hxc]
            rw [hp] at hep
            exact hlines p (endPageOf_mem hep) line hlm
          exact following_bound _ fls hls

/-- **C3 amended, witness.** At `preceding_context_len = following_context_len
= 1` on `pageC3`/`tabC3` the contexts are `"L2"` (one line) and `""` (no
lines). -/
theorem context_line_bounds_witness :
    countLines "L2" ≤ 1 + 1 ∧ countLines "" ≤ 1 :=
  context_line_bounds ⟨1, 1, true, true⟩ [pageC3] tabC3 "" "L2" ""
    (by decide) (by decide) (by decide) (by rfl) (by rfl)

/-- A 1×1-span placement whose column index is at or beyond the row length
ends in `IndexError`. -/
lemma placeCellBodyTL_oob (rc cc : Nat) (c' : DocumentTableCell)
    (hrow : c'.row_index < rc) (hcol : cc ≤ c'.column_index) :
    placeCellBodyTL ⟨mkGrid rc cc, [], "", 0⟩ c' 0 0 = .error .indexError := by
  have hrow' : c'.row_index < (mkGrid rc cc).length := by
    rw [mkGrid_length]; exact hrow
  have hset : pySet (List.replicate cc "") ((c'.column_index : Int)) c'.content
      = .error .indexError := by
    have := pySet_nat_ge (List.replicate cc "") c'.column_index c'.content
      (by rw [List.length_replicate]; exact hcol)
    exact this
  simp only [placeCellBodyTL, Nat.cast_zero, add_zero, sub_zero]
  rw [pyGet_nat_lt _ _ hrow', ok_bind]
  have hget : (mkGrid rc cc)[c'.row_index] = List.replicate cc "" :=
    List.getElem_replicate ..
  rw [hget, hset, error_bind]

/-- The same, one level up: `placeCell` on such a cell (of a kind that can
never merge) raises `IndexError`. -/
lemma placeCell_oob (merge : Bool) (rc cc : Nat) (c' : DocumentTableCell)
    (hkind : c'.kind ≠ "columnHeader")
    (hrow : c'.row_index < rc) (hcol : cc ≤ c'.column_index) :
    placeCell merge ⟨mkGrid rc cc, [], "", 0⟩ c' 0 0 = .error .indexError := by
  have hmc : mergeCond merge (FillState.row_idx_start ⟨mkGrid rc cc, [], "", 0⟩) c' = false :=
    mergeCond_false_of_kind hkind
  simp only [placeCell, hmc, Bool.false_eq_true, if_false,
    placeCellBodyTL_oob rc cc c' hrow hcol]

/-- **C4 amended.** A single-cell table whose cell (with spans 1×1) sits at a
column index at or beyond the declared `column_count` makes `_convert_tables`
raise Python's generic `IndexError` from the grid write — there is no
`MalformedTableResult` signal in this code path. -/
theorem out_of_bounds_placement_raises_indexError
    (cfg : Config) (meta : Option Meta) (pages : List DocumentPage)
    (t : DocumentTable) (cl : DocumentTableCell)
    (hcells : t.cells = [cl])
    (hcs : cl.column_span = some 1) (hrs : cl.row_span = some 1)
    (hkind : cl.kind ≠ "columnHeader")
    (hrow : cl.row_index < t.row_count)
    (hcol : t.column_count ≤ cl.column_index)
    (hcc : t.column_count ≠ 1) :
    convertTables cfg meta ⟨pages, [t]⟩ = .error .indexError := by
  have hplace : placeCell cfg.merge_multiple_column_headers
      ⟨mkGrid t.row_count t.column_count, [], "", 0⟩
      { cl with content := sanitize cl.content } 0 0 = .error .indexError :=
    placeCell_oob _ _ _ { cl with content := sanitize cl.content } hkind hrow hcol
  have hexp : expandCell cfg.merge_multiple_column_headers
      ⟨mkGrid t.row_count t.column_count, [], "", 0⟩
      { cl with content := sanitize cl.content } = .error .indexError := by
    have hr1 : List.range 1 = [0] := rfl
    simp only [hcs, hrs] at hplace
    simp only [expandCell, hcs, hrs, Option.getD_some, hr1,
      foldlM_cons', foldlM_nil', hplace, error_bind]
  have hfill : fillCells cfg.merge_multiple_column_headers t = .error .indexError := by
    unfold fillCells
    rw [hcells, processCells_cons]
    have hguard : (0 == 0 && cl.column_span == some t.column_count) = false := by
      have hne : cl.column_span ≠ some t.column_count := by
        rw [hcs]
        intro hc
        exact hcc (by injection hc with h; exact h.symm)
      have hb : (cl.column_span == some t.column_count) = false := beq_eq_false_iff_ne.mpr hne
      rw [hb, Bool.and_false]
    rw [hguard]
    simp only [Bool.false_eq_true, if_false, hexp, error_bind]
  have hconv : convertTable cfg pages meta t = .error .indexError := by
    unfold convertTable
    rw [hfill, error_bind]
  unfold convertTables convertTablesDocs
  simp only [foldlM_cons', foldlM_nil', hconv, error_bind]

/-- **C4 amended, witness.** The concrete out-of-grid cell of `tabC4` raises
`IndexError`. -/
theorem out_of_bounds_placement_raises_indexError_witness :
    convertTables ⟨0, 0, false, false⟩ none ⟨[], [tabC4]⟩ = .error .indexError :=
  out_of_bounds_placement_raises_indexError ⟨0, 0, false, false⟩ none [] tabC4
    ⟨0, 2, some 1, some 1, "content", "X"⟩ (by rfl) (by rfl) (by rfl)
    (by decide) (by decide) (by decide) (by decide)

/-- **C5.** A first cell spanning all columns becomes the caption: it is not
placed, the grid loses one row (`row_count − 1` rows when no header rows are
merged away), all subsequent cells are placed with row offset 1, and the
(sanitized) caption is the string handed to the preceding-context builder
and stored in the document's `preceding_context` meta key. -/
theorem caption_row_extraction
    (cfg : Config) (pages : List DocumentPage) (meta : Option Meta)
    (t : DocumentTable) (c0 : DocumentTableCell)
    (rest : List DocumentTableCell) (st : FillState) (doc : Document)
    (hcells : t.cells = c0 :: rest)
    (hcap : c0.column_span = some t.column_count)
    (hnomerge : ∀ x ∈ rest, mergeCond cfg.merge_multiple_column_headers 1 x = false)
    (hfill : fillCells cfg.merge_multiple_column_headers t = .ok st)
    (hconv : convertTable cfg pages meta t = .ok doc) :
    st.caption = sanitize c0.content ∧
    st.row_idx_start = 1 ∧
    st.table_list.length = t.row_count - 1 ∧
    ∃ pc, precedingContextOf cfg pages t (sanitize c0.content) = .ok pc ∧
      ∃ m, doc.meta = some m ∧ metaLookup m "preceding_context" = some (.str pc) := by
  have hfill0 := hfill
  unfold fillCells at hfill
  rw [hcells, processCells_cons] at hfill
  have hguard : (0 == 0 && c0.column_span == some t.column_count) = true := by
    rw [hcap]; simp
  rw [hguard] at hfill
  simp only [if_true] at hfill
  cases hpop : pyPop0 (mkGrid t.row_count t.column_count) with
  | error e => simp only [hpop, error_bind] at hfill; cases hfill
  | ok tl =>
    simp only [hpop] at hfill
    cases hrun : processCells cfg.merge_multiple_column_headers t.column_count rest (0 + 1)
        { table_list := tl, additional_column_header_rows := []
          caption := sanitize c0.content, row_idx_start := 1 } with
    | error e => simp only [hrun, error_bind] at hfill; cases hfill
    | ok st1 =>
      simp only [hrun, ok_bind] at hfill
      have hcapc := processCells_caption_const (Nat.succ_ne_zero 0) hrun
      have hc : st1.caption = sanitize c0.content := hcapc.1
      have hnm := processCells_no_merge_const (Nat.succ_ne_zero 0) hnomerge hrun
      have hadd : st1.additional_column_header_rows = [] := hnm.1
      have hlen : st1.table_list.length = tl.length := hnm.2
      have hsd : sortDesc ([] : List Nat) = [] := rfl
      have hdel : deleteRows st1.table_list ([] : List Nat) = .ok st1.table_list := rfl
      rw [hadd, hsd, hdel, ok_bind] at hfill
      injection hfill with hsteq
      have hstc : st.caption = sanitize c0.content := by
        rw [← hsteq]; exact hc
      refine ⟨hstc, ?_, ?_, ?_⟩
      · rw [← hsteq]; exact hcapc.2
      · rw [← hsteq]
        show st1.table_list.length = t.row_count - 1
        rw [hlen, pyPop0_ok_length hpop, mkGrid_length]
      · -- dissect convertTable
        unfold convertTable at hconv
        rw [hfill0, ok_bind] at hconv
        cases hpc : precedingContextOf cfg pages t st.caption with
        | error e => rw [hpc, error_bind] at hconv; cases hconv
        | ok pc =>
          rw [hpc, ok_bind] at hconv
          cases hfc : followingContextOf cfg pages t with
          | error e => rw [hfc, error_bind] at hconv; cases hconv
          | ok fc =>
            rw [hfc, ok_bind] at hconv
            cases hhd : pyGet st.table_list 0 with
            | error e => simp only [hhd, error_bind] at hconv; cases hconv
            | ok header =>
              simp only [hhd, ok_bind] at hconv
              rw [hstc] at hpc
              refine ⟨pc, hpc, ?_⟩
              injection hconv with hdoc
              rw [← hdoc]
              refine ⟨_, rfl, ?_⟩
              have hne1 : ("preceding_context" : String) ≠ "page" := by decide
              have hne2 : ("preceding_context" : String) ≠ "following_context" := by decide
              cases t.bounding_regions with
              | nil =>
                rw [metaLookup_metaSet_ne _ _ _ _ hne2, metaLookup_metaSet_self]
              | cons br brs =>
                cases hap : cfg.add_page_number with
                | false =>
                  simp only [Bool.false_eq_true, if_false]
                  rw [metaLookup_metaSet_ne _ _ _ _ hne2, metaLookup_metaSet_self]
                | true =>
                  simp only [if_true]
                  rw [metaLookup_metaSet_ne _ _ _ _ hne1,
                    metaLookup_metaSet_ne _ _ _ _ hne2, metaLookup_metaSet_self]

/-- **C5 witness.** The concrete caption table `tabC5`: caption `"T"`, row
offset 1, a 1-row grid out of `row_count = 2`, and `"T"` stored in
`preceding_context`. -/
theorem caption_row_extraction_witness :
    FillState.caption ⟨[["A", ""]], [], "T", 1⟩ = sanitize "T" ∧
    FillState.row_idx_start ⟨[["A", ""]], [], "T", 1⟩ = 1 ∧
    (FillState.table_list ⟨[["A", ""]], [], "T", 1⟩).length = tabC5.row_count - 1 ∧
    ∃ pc, precedingContextOf ⟨3, 3, true, true⟩ [] tabC5 (sanitize "T") = .ok pc ∧
      ∃ m, Document.meta ⟨.table ["A", ""] [],
              some [("following_context", .str "")
                    , ("preceding_context", .str "T")]⟩ = some m ∧
        metaLookup m "preceding_context" = some (.str pc) :=
  caption_row_extraction ⟨3, 3, true, true⟩ [] none tabC5
    ⟨0, 0, some 1, some 2, "content", "T"⟩
    [⟨1, 0, some 1, some 1, "content", "A"⟩]
    ⟨[["A", ""]], [], "T", 1⟩
    ⟨.table ["A", ""] [],
     some [("following_context", .str ""), ("preceding_context", .str "T")]⟩
    (by rfl) (by rfl) (by decide) (by rfl) (by rfl)

/-- **C8.** A non-caption cell whose `row_span` or `column_span` is absent or
zero contributes zero placements: processing it leaves the fill state
entirely unchanged and moves on to the next cell. -/
theorem zero_span_cell_contributes_nothing
    (merge : Bool) (colCount idx : Nat) (st : FillState)
    (cell : DocumentTableCell) (rest : List DocumentTableCell)
    (hnotcap : ¬(idx = 0 ∧ cell.column_span = some colCount))
    (hzero : cell.column_span = none ∨ cell.column_span = some 0 ∨
             cell.row_span = none ∨ cell.row_span = some 0) :
    processCells merge colCount (cell :: rest) idx st
      = processCells merge colCount rest (idx + 1) st := by
  have hguard : (idx == 0 && cell.column_span == some colCount) = false := by
    rcases Decidable.em (idx = 0) with h0 | h0
    · have hcs : cell.column_span ≠ some colCount := fun hc => hnotcap ⟨h0, hc⟩
      have : (cell.column_span == some colCount) = false := by
        simpa using hcs
      rw [this, Bool.and_false]
    · have : (idx == 0) = false := by simpa using h0
      rw [this, Bool.false_and]
  have hexp : expandCell merge st { cell with content := sanitize cell.content }
      = .ok st := by
    rcases hzero with hcs | hcs | hrs | hrs
    · simp [expandCell, hcs, pure_eq_ok]
    · simp [expandCell, hcs, pure_eq_ok]
    · simp only [expandCell, hrs]
      simpa using foldlM_ok_const (List.range (cell.column_span.getD 0)) st
    · simp only [expandCell, hrs]
      simpa using foldlM_ok_const (List.range (cell.column_span.getD 0)) st
  rw [processCells_cons, hguard]
  simp only [Bool.false_eq_true, if_false, hexp]

/-- **C8 witness.** The concrete zero-`row_span` cell `cellC8` is processed
without touching the 2×3 grid. -/
theorem zero_span_cell_contributes_nothing_witness :
    ¬((1 : Nat) = 0 ∧ cellC8.column_span = some 3) ∧
    processCells true 3 [cellC8] 1 stC8 = processCells true 3 [] 2 stC8 :=
  ⟨by decide,
   zero_span_cell_contributes_nothing true 3 1 stC8 cellC8 [] (by decide) (by decide)⟩

/-- **C2 amended.** What a normal return of `_convert_tables` leaves behind:
the pages are untouched and every table equals its input table with each
cell's content sanitized in place — the only mutation of the caller's
`AnalyzeResult` is the `:selected:`/`:unselected:` stripping. -/
theorem convertTables_post_state_is_sanitized
    (cfg : Config) (meta : Option Meta) (result : AnalyzeResult)
    (out : List Document × AnalyzeResult)
    (h : convertTables cfg meta result = .ok out) :
    out.2.pages = result.pages ∧
    out.2.tables = result.tables.map sanitizeTable ∧
    out.2 = sanitizeResult result := by
  unfold convertTables at h
  cases hd : convertTablesDocs cfg meta result with
  | error e => rw [hd, error_bind] at h; cases h
  | ok docs =>
    rw [hd, ok_bind] at h
    cases h
    exact ⟨rfl, rfl, rfl⟩

/-- **C2 amended, witness.** The conversion of `resC2` returns normally and
its post-state is exactly the sanitized input. -/
theorem convertTables_post_state_witness :
    postC2.pages = resC2.pages ∧
    postC2.tables = resC2.tables.map sanitizeTable ∧
    postC2 = sanitizeResult resC2 :=
  convertTables_post_state_is_sanitized ⟨3, 3, true, true⟩ none resC2
    ([{ content := .table ["x", ""] []
        meta := some [("following_context", .str ""), ("preceding_context", .str "")] }],
     postC2)
    (by rfl)

/-- **C9 amended.** Sanitization happens before the caption check: whenever
the first cell is taken as the caption, the stored caption is exactly the
single-pass replacement result `sanitize` of that cell's content (which can
itself still contain a marker, see the counterexample). -/
theorem caption_is_sanitized_first_cell
    (merge : Bool) (t : DocumentTable) (c0 : DocumentTableCell)
    (rest : List DocumentTableCell) (st : FillState)
    (hcells : t.cells = c0 :: rest)
    (hcap : c0.column_span = some t.column_count)
    (hfill : fillCells merge t = .ok st) :
    st.caption = sanitize c0.content := by
  unfold fillCells at hfill
  rw [hcells, processCells_cons] at hfill
  have hguard : (0 == 0 && c0.column_span == some t.column_count) = true := by
    rw [hcap]
    simp
  rw [hguard] at hfill
  simp only [if_true] at hfill
  cases hpop : pyPop0 (mkGrid t.row_count t.column_count) with
  | error e => simp only [hpop, error_bind] at hfill; cases hfill
  | ok tl =>
    simp only [hpop] at hfill
    cases hrun : processCells merge t.column_count rest (0 + 1)
        { table_list := tl, additional_column_header_rows := []
          caption := sanitize c0.content, row_idx_start := 1 } with
    | error e => simp only [hrun, error_bind] at hfill; cases hfill
    | ok st1 =>
      simp only [hrun, ok_bind] at hfill
      have hcapconst := processCells_caption_const (Nat.succ_ne_zero 0) hrun
      cases hdel : deleteRows st1.table_list (sortDesc st1.additional_column_header_rows) with
      | error e => simp only [hdel, error_bind] at hfill; cases hfill
      | ok tl2 =>
        simp only [hdel, ok_bind] at hfill
        cases hfill
        exact hcapconst.1

/-- **C9 amended, witness.** For `tabC9` the caption is the sanitized first
cell content. -/
theorem caption_is_sanitized_first_cell_witness :
    FillState.caption ⟨[[""]], [], ":selected:", 1⟩ = sanitize ":selec:selected:ted:" :=
  caption_is_sanitized_first_cell true tabC9
    ⟨0, 0, some 1, some 1, "content", ":selec:selected:ted:"⟩ []
    ⟨[[""]], [], ":selected:", 1⟩ (by rfl) (by rfl) (by rfl)

/-- **C10.** A table whose `spans` sequence is empty makes `_convert_tables`
raise `IndexError` at `table.spans[0]` (line 272), even when its cells fill
the grid without error and its bounding-region page resolves. -/
theorem empty_spans_table_raises
    (cfg : Config) (pages : List DocumentPage) (meta : Option Meta)
    (t : DocumentTable) (st : FillState) (op : Option DocumentPage)
    (hspans : t.spans = [])
    (hfill : fillCells cfg.merge_multiple_column_headers t = .ok st)
    (hpage : beginningPageOf pages t = .ok op) :
    convertTable cfg pages meta t = .error .indexError := by
  unfold convertTable
  rw [hfill, ok_bind]
  have hpre : precedingContextOf cfg pages t st.caption = .error .indexError := by
    unfold precedingContextOf
    rw [hpage, ok_bind, hspans]
    rfl
  rw [hpre, error_bind]

/-- **C10 witness.** `tabC10` has a bounding region on an existing page and
an empty cell list, yet conversion raises `IndexError`. -/
theorem empty_spans_table_raises_witness :
    convertTable ⟨3, 3, true, true⟩ [⟨1, []⟩] none tabC10 = .error .indexError :=
  empty_spans_table_raises ⟨3, 3, true, true⟩ [⟨1, []⟩] none tabC10
    ⟨[[""]], [], "", 0⟩ (some ⟨1, []⟩) (by rfl) (by rfl) (by rfl)

/-- **C6.** Multi-row column-header merging behaves as specified.
(i) Per-cell action, universally: for every fill state and every
`columnHeader` cell whose row index is greater than the caption offset row,
a successful placement with merging enabled appends the cell's content
newline-separated onto grid row 0 at the cell's own column (every other grid
row is untouched: the new grid is the old one with only row 0 replaced) and
records the cell's destination row offset as an extra header row.
(ii) The recorded extra rows are deleted in descending index order:
`sorted(rows, reverse=True)` is a descending permutation of any index list.
(iii)-(vi) End-to-end on the unbounded family `twoHeaderTable cap h0 h1`
(optional caption, any column count `h0.length ≥ 1`, arbitrary cell
contents): with the flag true the two consecutive header rows collapse into
the single newline-joined header row — the grid has one row fewer — and row
offset 1 is recorded and deleted; with the flag false both header rows
remain distinct and nothing is recorded. -/
theorem column_header_merge_collapses_rows
    (cap : Option String) (h0 h1 : List String)
    (hne : h0 ≠ []) (hlen : h1.length = h0.length)
    (hcap1 : cap = none → h0.length ≠ 1) :
    (∀ (st : FillState) (cell : DocumentTableCell) (r c : Nat) (st' : FillState),
        cell.kind = "columnHeader" →
        st.row_idx_start < cell.row_index →
        placeCell true st cell r c = .ok st' →
        ∃ row0 old,
          st.table_list.get? 0 = some row0 ∧
          row0.get? (cell.column_index + c) = some old ∧
          st'.table_list
            = st.table_list.set 0
                (row0.set (cell.column_index + c) (old ++ "\n" ++ cell.content)) ∧
          st'.additional_column_header_rows
            = insertSet (cell.row_index - st.row_idx_start)
                st.additional_column_header_rows)
    ∧ (∀ idxs : List Nat, (sortDesc idxs).Sorted (· ≥ ·) ∧ (sortDesc idxs).Perm idxs)
    ∧ Except.map FillState.table_list (fillCells true (twoHeaderTable cap h0 h1))
        = .ok [List.zipWith (fun a b => a ++ "\n" ++ b) (h0.map sanitize)
                 (h1.map sanitize)]
    ∧ Except.map FillState.additional_column_header_rows
        (fillCells true (twoHeaderTable cap h0 h1)) = .ok [1]
    ∧ Except.map FillState.table_list (fillCells false (twoHeaderTable cap h0 h1))
        = .ok [h0.map sanitize, h1.map sanitize]
    ∧ Except.map FillState.additional_column_header_rows
        (fillCells false (twoHeaderTable cap h0 h1)) = .ok [] := by
  refine ⟨?_, ?_, ?_, ?_, ?_, ?_⟩
  · intro st cell r c st' hk hlt hp
    have hmc : mergeCond true st.row_idx_start cell = true := by
      simp [mergeCond, hk, hlt]
    unfold placeCell at hp
    rw [hmc, if_pos rfl] at hp
    cases hM : placeCellMergeTL st cell c with
    | error e =>
      simp only [hM] at hp
      cases hp
    | ok tl =>
      simp only [hM] at hp
      injection hp with hp
      subst hp
      unfold placeCellMergeTL at hM
      cases hg0 : pyGet st.table_list 0 with
      | error e =>
        simp only [hg0, error_bind] at hM
        cases hM
      | ok row0 =>
      simp only [hg0, ok_bind] at hM
      cases hg1 : pyGet row0 ((cell.column_index : Int) + (c : Int)) with
      | error e =>
        simp only [hg1, error_bind] at hM
        cases hM
      | ok old =>
      simp only [hg1, ok_bind] at hM
      cases hs1 : pySet row0 ((cell.column_index : Int) + (c : Int))
          (old ++ "\n" ++ cell.content) with
      | error e =>
        simp only [hs1, error_bind] at hM
        cases hM
      | ok row0' =>
      simp only [hs1, ok_bind] at hM
      have hJ : ((cell.column_index : Int) + (c : Int))
          = ((cell.column_index + c : Nat) : Int) := by
        push_cast
        ring
      rw [hJ] at hg1 hs1
      have hR0 : st.table_list.get? 0 = some row0 := by
        simpa using pyGet_ok_nonneg (le_refl (0 : Int)) hg0
      have hOld : row0.get? (cell.column_index + c) = some old := by
        simpa using pyGet_ok_nonneg (by omega) hg1
      have hRow0' : row0'
          = row0.set (cell.column_index + c) (old ++ "\n" ++ cell.content) := by
        simpa using pySet_ok_nonneg (by omega) hs1
      have hTl : tl = st.table_list.set 0 row0' := by
        simpa using pySet_ok_nonneg (le_refl (0 : Int)) hM
      refine ⟨row0, old, hR0, hOld, ?_, rfl⟩
      show tl = _
      rw [hTl, hRow0']
  · intro idxs
    exact ⟨sortDesc_sorted idxs, sortDesc_perm idxs⟩
  · rw [fillCells_twoHeader_merge cap h0 h1 hne hlen hcap1]
    rfl
  · rw [fillCells_twoHeader_merge cap h0 h1 hne hlen hcap1]
    rfl
  · rw [fillCells_twoHeader_nomerge cap h0 h1 hne hlen hcap1]
    rfl
  · rw [fillCells_twoHeader_nomerge cap h0 h1 hne hlen hcap1]
    rfl

/-- **C6 witness.** The captioned three-column instance: merging collapses
the two header rows into the single newline-joined row and records row
offset 1; without merging both header rows remain. -/
theorem column_header_merge_collapses_rows_witness :
    Except.map FillState.table_list
        (fillCells true
          (twoHeaderTable (some "Cap") ["a1", "a2", "a3"] ["b1", "b2", "b3"]))
      = .ok [List.zipWith (fun a b => a ++ "\n" ++ b)
              (["a1", "a2", "a3"].map sanitize) (["b1", "b2", "b3"].map sanitize)]
    ∧ Except.map FillState.additional_column_header_rows
        (fillCells true
          (twoHeaderTable (some "Cap") ["a1", "a2", "a3"] ["b1", "b2", "b3"]))
      = .ok [1]
    ∧ Except.map FillState.table_list
        (fillCells false
          (twoHeaderTable (some "Cap") ["a1", "a2", "a3"] ["b1", "b2", "b3"]))
      = .ok [["a1", "a2", "a3"].map sanitize, ["b1", "b2", "b3"].map sanitize] :=
  ⟨(column_header_merge_collapses_rows (some "Cap") ["a1", "a2", "a3"]
      ["b1", "b2", "b3"] (by decide) (by decide) (by decide)).2.2.1,
   (column_header_merge_collapses_rows (some "Cap") ["a1", "a2", "a3"]
      ["b1", "b2", "b3"] (by decide) (by decide) (by decide)).2.2.2.1,
   (column_header_merge_collapses_rows (some "Cap") ["a1", "a2", "a3"]
      ["b1", "b2", "b3"] (by decide) (by decide) (by decide)).2.2.2.2.1⟩

end Azure
